import Mathlib

/-!
Verification of the GoDatabase repository (a B+Tree key/value store replicated
with a Raft-style protocol) against its natural-language specification.

The development is a shallow embedding of the Go sources:

* `internal/btree/node.go` — the `Node` structure and its page-level
  operations (`Serialize`, `Deserialize`, `Split`, `insertKV`, `removeKV`,
  `getChild`, `setChild`, `keys`, `getValue`, …);
* `internal/btree/btree.go` — the `BTree` driver (`Insert`, `Get`, `Delete`,
  `findLeaf`, `findParent`, `insertInParent`, `rebalance`, and the
  `redistribute` / `merge` stubs);
* `internal/raft/handlers.go` — the `RequestVote` / `AppendEntries` RPC
  handlers, `isLogUpToDate`, `logContainsEntry`, `applyCommittedEntries`;
* the `RaftNode` election / heartbeat state transitions and the
  `StorageEngine.Put` / `StorageEngine.Delete` adapter.

Modelling conventions, used uniformly below:

* Go `[]byte` is `List Nat`; every value a Go program can place in a byte
  slice is `< 256`, and every write the code performs through a `byte(…)`
  cast is modelled with an explicit `% 256`.  Likewise `uint16` stores are
  written `% 65536` and `uint64` values live in `Nat` with `% 2 ^ 64` where
  the code truncates.  Go `nil` byte slices behave exactly like empty slices
  in every operation the code performs on them (`len`, `copy`,
  `bytes.Compare`), so both are `[]`.
* Go pointers `*Node` are addresses (`Nat`) into an explicit heap; `nil` is
  `Option.none`.  The process-wide `nodeRelationships` map and `nextNodeID`
  counter of `node.go` are part of the threaded state.  A Go `map` iteration
  (`setChild`) can meet at most one matching entry (ids are assigned at most
  once per node), so an association-list search models it deterministically.
* Runtime panics (nil dereference, slice index out of range, explicit
  `panic(…)`) are a distinguished result `GRes.panicked`; recursive
  traversals carry fuel and exhausting it is the distinguished result
  `GRes.oof`, never confused with a genuine outcome.
-/

namespace GoDB

/-- Bytes of a Go byte slice (`[]byte`). Elements produced by the Go code are
always `< 256`; writes through `byte(…)` casts are modelled with `% 256`. -/
abbrev Bytes := List Nat

/-- Constants from `node.go`. -/
def BNODE_NODE : Nat := 1

/-- Leaf node tag from `node.go`. -/
def BNODE_LEAF : Nat := 2

/-- Page size constant `BTREE_PAGE_SIZE` from `node.go`. -/
def BTREE_PAGE_SIZE : Nat := 4096

/-- Maximum key size `BTREE_MAX_KEY_SIZE` from `node.go`. -/
def BTREE_MAX_KEY_SIZE : Nat := 1000

/-- Maximum value size `BTREE_MAX_VAL_SIZE` from `node.go`. -/
def BTREE_MAX_VAL_SIZE : Nat := 3000

/-- The `Node` structure of `node.go`: header (`typ`, `nkeys`), child
pointers (`uint64` node ids), entry offsets (`uint16`), and the encoded
key-value data section. -/
structure Node where
  typ : Nat
  nkeys : Nat
  pointers : List Nat
  offsets : List Nat
  data : Bytes
deriving DecidableEq

/-- The `NewNode` constructor of `node.go`. -/
def NewNode (typ : Nat) : Node :=
  { typ := typ, nkeys := 0, pointers := [], offsets := [], data := [] }

/-- Result of running a piece of Go code: a value, a runtime panic, or
exhaustion of the fuel bounding a recursive traversal. -/
inductive GRes (α : Type) where
  | ok (a : α)
  | panicked
  | oof
deriving DecidableEq

/-- The `Node.Size` method: `4 + len(pointers)*8 + len(offsets)*2 + len(data)`. -/
def Node.size (n : Node) : Nat :=
  4 + n.pointers.length * 8 + n.offsets.length * 2 + n.data.length

/-- The `Node.IsFull` method: `Size() >= BTREE_PAGE_SIZE`. -/
def Node.isFull (n : Node) : Bool :=
  n.size ≥ BTREE_PAGE_SIZE

/-- The `Node.IsEmpty` method: `nkeys == 0`. -/
def Node.isEmpty (n : Node) : Bool :=
  n.nkeys = 0

/-- Big-endian 2-byte encoding used by `Serialize` for `typ`, `nkeys` and
each offset: `[byte(x >> 8), byte(x)]`. -/
def enc16 (x : Nat) : Bytes :=
  [x / 256 % 256, x % 256]

/-- Big-endian 8-byte encoding used by `Serialize` for each pointer:
`[byte(x >> 56), …, byte(x)]`. -/
def enc64 (x : Nat) : Bytes :=
  [x / 2 ^ 56 % 256, x / 2 ^ 48 % 256, x / 2 ^ 40 % 256, x / 2 ^ 32 % 256,
   x / 2 ^ 24 % 256, x / 2 ^ 16 % 256, x / 2 ^ 8 % 256, x % 256]

/-- The `Node.Serialize` method of `node.go`.  The Go code fills a buffer of
exactly `4 + len(pointers)*8 + len(offsets)*2 + len(data)` bytes: the header,
then each pointer big-endian, then each offset big-endian, then the data
section; the result is that concatenation. -/
def Node.serialize (n : Node) : Bytes :=
  enc16 n.typ ++ enc16 n.nkeys
    ++ (n.pointers.map enc64).flatten
    ++ (n.offsets.map enc16).flatten
    ++ n.data

/-- Result of `Node.Deserialize`: the decoded node, the explicit
`errors.New("data too short")` return, or a runtime index-out-of-range panic
(the code performs no other bounds check). -/
inductive DeserResult where
  | ok (n : Node)
  | errTooShort
  | panicked
deriving DecidableEq

/-- Big-endian 2-byte read `uint16(data[i])<<8 | uint16(data[i+1])` at
offset `i`; `none` models the Go index panic when the buffer is too short.
On Go inputs both bytes are `< 256`, so the bitwise or is the base-256 sum;
the `% 256` normalizations are the identity there. -/
def readU16 (d : Bytes) (i : Nat) : Option Nat :=
  match d.get? i, d.get? (i + 1) with
  | some b0, some b1 => some (b0 % 256 * 256 + b1 % 256)
  | _, _ => none

/-- Big-endian 8-byte read `uint64(data[i])<<56 | … | uint64(data[i+7])`,
with `none` for the Go index panic, as in `readU16`. -/
def readU64 (d : Bytes) (i : Nat) : Option Nat :=
  match d.get? i, d.get? (i + 1), d.get? (i + 2), d.get? (i + 3),
        d.get? (i + 4), d.get? (i + 5), d.get? (i + 6), d.get? (i + 7) with
  | some b0, some b1, some b2, some b3, some b4, some b5, some b6, some b7 =>
      some (b0 % 256 * 2 ^ 56 + b1 % 256 * 2 ^ 48 + b2 % 256 * 2 ^ 40 +
            b3 % 256 * 2 ^ 32 + b4 % 256 * 2 ^ 24 + b5 % 256 * 2 ^ 16 +
            b6 % 256 * 2 ^ 8 + b7 % 256)
  | _, _, _, _, _, _, _, _ => none

/-- The pointer-reading loop of `Deserialize`: `count` consecutive 8-byte
big-endian reads starting at `i`. -/
def readU64s (d : Bytes) (i : Nat) : Nat → Option (List Nat)
  | 0 => some []
  | count + 1 =>
    match readU64 d i, readU64s d (i + 8) count with
    | some v, some vs => some (v :: vs)
    | _, _ => none

/-- The offset-reading loop of `Deserialize`: `count` consecutive 2-byte
big-endian reads starting at `i`. -/
def readU16s (d : Bytes) (i : Nat) : Nat → Option (List Nat)
  | 0 => some []
  | count + 1 =>
    match readU16 d i, readU16s d (i + 2) count with
    | some v, some vs => some (v :: vs)
    | _, _ => none

/-- The `Node.Deserialize` method of `node.go`.  It checks only
`len(data) < 4`; it then reads `nkeys` pointers and `nkeys` offsets with no
further bounds check (an out-of-range read is a Go panic), and copies the
remaining bytes as the data section.  The method overwrites every field of
its receiver, so it is a function of the input buffer alone. -/
def Node.deserialize (d : Bytes) : DeserResult :=
  if d.length < 4 then .errTooShort
  else
    let typ := d.getD 0 0 % 256 * 256 + d.getD 1 0 % 256
    let nkeys := d.getD 2 0 % 256 * 256 + d.getD 3 0 % 256
    match readU64s d 4 nkeys, readU16s d (4 + 8 * nkeys) nkeys with
    | some ptrs, some offs =>
        .ok { typ := typ, nkeys := nkeys, pointers := ptrs, offsets := offs,
              data := d.drop (4 + 10 * nkeys) }
    | _, _ => .panicked

/-- The `bytes.Compare` function of the Go standard library: lexicographic
comparison of byte slices, returning -1, 0 or 1. -/
def bytesCompare : Bytes → Bytes → Int
  | [], [] => 0
  | [], _ :: _ => -1
  | _ :: _, [] => 1
  | a :: as, b :: bs => if a < b then -1 else if b < a then 1 else bytesCompare as bs

/-- Entry `i` of the `Node.keys` method: reads the offset, decodes the
2-byte key length, and slices the key out of the data section.  Each guard
that makes the Go loop `continue` leaves the corresponding slot `nil`,
modelled as `[]`.  (With a data section below 64 KiB — always true for the
pages here — the `uint16` additions `keyStart`/`keyEnd` cannot wrap, so
plain `Nat` arithmetic is exact.) -/
def Node.keyAt (n : Node) (i : Nat) : Bytes :=
  match n.offsets.get? i with
  | none => []
  | some start =>
    if start + 4 > n.data.length then []
    else
      let keyLen := n.data.getD start 0 % 256 * 256 + n.data.getD (start + 1) 0 % 256
      if start + 4 + keyLen > n.data.length then []
      else (n.data.drop (start + 4)).take keyLen

/-- The `Node.keys` method: the decoded key of each of the `nkeys` slots. -/
def Node.keys (n : Node) : List Bytes :=
  (List.range n.nkeys).map n.keyAt

/-- The `Node.getValue` method (leaf nodes): decodes the value of entry `i`.
The guarded early returns give `nil` (`ok []`); the unguarded
`n.offsets[i]` access panics when `offsets` is shorter than `nkeys`.  The
Go parameter is an `int` whose negative case returns `nil`; indices here
are `Nat`, which covers every call site. -/
def Node.getValue (n : Node) (i : Nat) : GRes Bytes :=
  if n.typ ≠ BNODE_LEAF ∨ i ≥ n.nkeys then .ok []
  else
    match n.offsets.get? i with
    | none => .panicked
    | some start =>
      if start + 4 > n.data.length then .ok []
      else
        let keyLen := n.data.getD start 0 % 256 * 256 + n.data.getD (start + 1) 0 % 256
        let valLen := n.data.getD (start + 2) 0 % 256 * 256 + n.data.getD (start + 3) 0 % 256
        if start + 4 + keyLen + valLen > n.data.length then .ok []
        else (.ok ((n.data.drop (start + 4 + keyLen)).take valLen))

/-- The `Node.insertKV` method: encodes the entry as
`|keyLen(2B)|valLen(2B)|key|value|` (lengths are `uint16` casts, written
`% 65536`, and the header bytes are `byte(…)` casts, written `% 256`),
splices it into the data section at the position given by `offsets[pos]`
(or appends when `pos == nkeys`), inserts the new offset, and adds
`uint16(entrySize)` to every following offset.  The unguarded accesses
`n.offsets[pos]` and the slices panic on a corrupt node; `pos` beyond the
offset array also panics (`copy(n.offsets[pos+1:] …)`). -/
def Node.insertKV (n : Node) (pos : Nat) (key value : Bytes) : GRes Node :=
  let keyLen := key.length % 65536
  let valLen := value.length % 65536
  let entrySize := 4 + keyLen + valLen
  let entry : Bytes :=
    [keyLen / 256 % 256, keyLen % 256, valLen / 256 % 256, valLen % 256]
      ++ (key.take keyLen).map (· % 256) ++ (value.take valLen).map (· % 256)
  let placed : GRes (Nat × Bytes) :=
    if pos = n.nkeys then
      .ok (n.data.length % 65536, n.data ++ entry)
    else
      match n.offsets.get? pos with
      | none => .panicked
      | some off =>
        if off > n.data.length then .panicked
        else .ok (off, n.data.take off ++ entry ++ n.data.drop off)
  match placed with
  | .ok (newOffset, data) =>
    if pos > n.offsets.length then .panicked
    else
      .ok { n with
            data := data,
            offsets := n.offsets.take pos ++ [newOffset]
              ++ (n.offsets.drop pos).map (fun o => (o + entrySize % 65536) % 65536),
            nkeys := (n.nkeys + 1) % 65536 }
  | .panicked => .panicked
  | .oof => .oof

/-- The `Node.removeKV` method: decodes the entry length at `offsets[pos]`,
removes its bytes from the data section, removes the offset, and subtracts
`uint16(entrySize)` from every following offset (`uint16` wraparound written
with `% 65536`).  Out-of-range positions return the node unchanged; the
unguarded `n.offsets[pos]` access and the `n.data[end:]` slice panic on a
corrupt node. -/
def Node.removeKV (n : Node) (pos : Nat) : GRes Node :=
  if pos ≥ n.nkeys then .ok n
  else
    match n.offsets.get? pos with
    | none => .panicked
    | some start =>
      if start + 4 > n.data.length then .ok n
      else
        let keyLen := n.data.getD start 0 % 256 * 256 + n.data.getD (start + 1) 0 % 256
        let valLen := n.data.getD (start + 2) 0 % 256 * 256 + n.data.getD (start + 3) 0 % 256
        let entrySize := 4 + keyLen + valLen
        let dEnd := (start + entrySize % 65536) % 65536
        if dEnd > n.data.length then .panicked
        else
          .ok { n with
                data := n.data.take start ++ n.data.drop dEnd,
                offsets := n.offsets.take pos
                  ++ (n.offsets.drop (pos + 1)).map
                      (fun o => (o + 65536 - entrySize % 65536) % 65536),
                nkeys := n.nkeys - 1 }

/-- The `Node.Split` method: for `nkeys < 2` returns `(nil, nil)` (modelled
`(n, none, [])`); otherwise partitions at `splitIdx = nkeys / 2`, giving the
right sibling the entries (and, for internal nodes, the pointers) from
`splitIdx` on, rebasing its offsets by `startOffset = offsets[splitIdx]`
(`uint16` subtraction written `% 65536`; stored offsets are below 65536),
and trimming the receiver to the left half.  The promoted key is the first
key of the right sibling when its guards pass, else `nil`.  The unguarded
`offsets[splitIdx …]` accesses and the `data[startOffset:]` slice panic on a
corrupt node.  The result is `(left, right, promotedKey)`. -/
def Node.split (n : Node) : GRes (Node × Option Node × Bytes) :=
  if n.nkeys < 2 then .ok (n, none, [])
  else if n.offsets.length < n.nkeys then .panicked
  else
    let splitIdx := n.nkeys / 2
    let startOffset := n.offsets.getD splitIdx 0
    if startOffset > n.data.length then .panicked
    else
      let rightPointers := if n.typ = BNODE_NODE then n.pointers.drop splitIdx else []
      let leftPointers := if n.typ = BNODE_NODE then n.pointers.take splitIdx else n.pointers
      let rightOffsets :=
        ((n.offsets.drop splitIdx).take (n.nkeys - splitIdx)).map
          (fun o => (o + 65536 - startOffset) % 65536)
      let rightData := n.data.drop startOffset
      let right : Node :=
        { typ := n.typ, nkeys := n.nkeys - splitIdx, pointers := rightPointers,
          offsets := rightOffsets, data := rightData }
      let left : Node :=
        { n with nkeys := splitIdx, pointers := leftPointers,
                 offsets := n.offsets.take splitIdx, data := n.data.take startOffset }
      let promoted : Bytes :=
        match rightOffsets.head? with
        | none => []
        | some o =>
          if o + 4 ≤ rightData.length then
            let kLen := rightData.getD o 0 % 256 * 256 + rightData.getD (o + 1) 0 % 256
            if o + 4 + kLen ≤ rightData.length then (rightData.drop (o + 4)).take kLen
            else []
          else []
      .ok (left, some right, promoted)

/-- Program state threaded through the B+Tree driver: the heap of `Node`
objects (Go pointers become addresses, allocated in order), the process-wide
`nodeRelationships` map and `nextNodeID` counter of `node.go`, and the
`BTree` struct fields `root` and `size` of `btree.go`. -/
structure BTreeState where
  heap : List (Nat × Node)
  rel : List (Nat × Nat)
  nextNodeID : Nat
  nextAddr : Nat
  root : Nat
  size : Int
deriving DecidableEq

/-- Dereference of a node address (Go pointer). -/
def BTreeState.node (s : BTreeState) (a : Nat) : Option Node :=
  (s.heap.find? (fun p => p.1 = a)).map (·.2)

/-- In-place mutation of the node object at address `a`. -/
def BTreeState.setNode (s : BTreeState) (a : Nat) (n : Node) : BTreeState :=
  { s with heap := s.heap.map (fun p => if p.1 = a then (a, n) else p) }

/-- Lookup in the `nodeRelationships` map: node id to node address. -/
def BTreeState.relGet (s : BTreeState) (id : Nat) : Option Nat :=
  (s.rel.find? (fun p => p.1 = id)).map (·.2)

/-- Reverse search of `nodeRelationships` for the id of a node object, as
`setChild` does with its `range` loop; at most one entry can match. -/
def BTreeState.relFindId (s : BTreeState) (a : Nat) : Option Nat :=
  (s.rel.find? (fun p => p.2 = a)).map (·.1)

/-- State-and-panic monad for the B+Tree driver code. -/
def BM (α : Type) : Type := BTreeState → GRes (α × BTreeState)

instance : Monad BM where
  pure a := fun s => .ok (a, s)
  bind m f := fun s =>
    match m s with
    | .ok (a, s1) => f a s1
    | .panicked => .panicked
    | .oof => .oof

/-- Runtime panic (nil dereference, explicit `panic(…)`, slice error). -/
def BM.panic {α : Type} : BM α := fun _ => .panicked

/-- Fuel exhaustion of a recursive traversal. -/
def BM.outOfFuel {α : Type} : BM α := fun _ => .oof

/-- Read the whole state. -/
def BM.getState : BM BTreeState := fun s => .ok (s, s)

/-- Replace the whole state. -/
def BM.modify (f : BTreeState → BTreeState) : BM Unit := fun s => .ok ((), f s)

/-- Dereference a `*Node`: Go panics on `nil` and on a dangling address
(the latter cannot arise: every address handed out is allocated). -/
def readNode (a? : Option Nat) : BM Node := fun s =>
  match a? with
  | none => .panicked
  | some a =>
    match s.node a with
    | none => .panicked
    | some n => .ok (n, s)

/-- Write back a mutated node object. -/
def writeNode (a : Nat) (n : Node) : BM Unit := fun s => .ok ((), s.setNode a n)

/-- Allocation of a fresh node object (a Go `&Node{…}`). -/
def allocNode (n : Node) : BM Nat := fun s =>
  .ok (s.nextAddr,
       { s with heap := (s.nextAddr, n) :: s.heap, nextAddr := s.nextAddr + 1 })

/-- Embed a pure node-method result into the monad. -/
def liftG {α : Type} (g : GRes α) : BM α := fun s =>
  match g with
  | .ok a => .ok (a, s)
  | .panicked => .panicked
  | .oof => .oof

/-- The `Node.getChild` method of `node.go`, on the node object `n`: out of
range of the pointer array returns `nil`; otherwise the node id is looked up
in `nodeRelationships`; a miss allocates a fresh leaf node, registered under
the id when the id is nonzero. -/
def getChild (n : Node) (i : Nat) : BM (Option Nat) := fun s =>
  match n.pointers.get? i with
  | none => .ok (none, s)
  | some nodeID =>
    match s.relGet nodeID with
    | some a => .ok (some a, s)
    | none =>
      let a := s.nextAddr
      let s1 := { s with heap := (a, NewNode BNODE_LEAF) :: s.heap,
                         nextAddr := a + 1 }
      let s2 := if nodeID > 0 then { s1 with rel := (nodeID, a) :: s1.rel } else s1
      .ok (some a, s2)

/-- The `Node.setChild` method of `node.go`, on the node object at address
`a`: grows the pointer array with zeros up to index `i` if needed, finds the
id of the child object in `nodeRelationships` (assigning and registering
`nextNodeID` when absent and the child is not `nil`), and stores the id
(zero for an unregistered `nil` child) in `pointers[i]`. -/
def setChild (a : Nat) (i : Nat) (child : Option Nat) : BM Unit := fun s =>
  match s.node a with
  | none => .panicked
  | some n =>
    let ptrs :=
      if i ≥ n.pointers.length then
        n.pointers ++ List.replicate (i - n.pointers.length + 1) 0
      else n.pointers
    let found :=
      match child with
      | some c => s.relFindId c
      | none => none
    match found with
    | some id =>
      .ok ((), s.setNode a { n with pointers := ptrs.set i id })
    | none =>
      match child with
      | some c =>
        let id := s.nextNodeID
        let s1 := { s with nextNodeID := id + 1, rel := (id, c) :: s.rel }
        .ok ((), s1.setNode a { n with pointers := ptrs.set i id })
      | none =>
        .ok ((), s.setNode a { n with pointers := ptrs.set i 0 })

/-- The `Node.children` method: `getChild` on every pointer index. -/
def children (n : Node) : BM (List (Option Nat)) :=
  (List.range n.pointers.length).mapM (getChild n)

/-- The `BTree.findLeaf` method of `btree.go`: returns a leaf unchanged;
on an internal node descends into the first child whose separator exceeds
the key, or the last child.  Recursion depth is bounded by fuel. -/
def findLeaf : Nat → Option Nat → Bytes → BM Nat
  | 0, _, _ => BM.outOfFuel
  | fuel + 1, a?, key => do
    let n ← readNode a?
    if n.typ = BNODE_LEAF then
      pure (a?.getD 0)
    else do
      let ks := n.keys
      let i := ks.findIdx (fun k => bytesCompare key k < 0)
      let c? ← getChild n i
      findLeaf fuel c? key

/-- Errors returned by the `BTree` public API (`errors.New(…)` values in
`btree.go`). -/
inductive BErr where
  | keyTooLarge
  | valueTooLarge
  | keyExists
  | keyNotFound
deriving DecidableEq

/-- Position loop of `BTree.insertInLeaf`: starting position 0, returns
`none` on an exact match (`"key already exists"`), stops before the first
greater key, else advances. -/
def insertLeafPos (key : Bytes) : List Bytes → Nat → Option Nat
  | [], pos => some pos
  | k :: ks, pos =>
    if bytesCompare key k = 0 then none
    else if bytesCompare key k < 0 then some pos
    else insertLeafPos key ks (pos + 1)

/-- The `BTree.insertInLeaf` method: finds the sorted position in the leaf
object at `a` (error when the key exists) and splices the entry in with
`insertKV`. -/
def insertInLeaf (a : Nat) (key value : Bytes) : BM (Option BErr) := do
  let leaf ← readNode (some a)
  match insertLeafPos key leaf.keys 0 with
  | none => pure (some .keyExists)
  | some pos => do
    let leaf1 ← liftG (leaf.insertKV pos key value)
    writeNode a leaf1
    pure none

/-- Inner loop of `BTree.findParent` over the child indices of one node:
`rec` is the recursive descent into a child.  A child equal to the target
(Go pointer comparison) identifies `selfA` as the parent; otherwise the
search recurses into the child before moving on. -/
def findParentLoop (rec : Option Nat → BM (Option Nat)) (n : Node)
    (selfA target : Nat) : List Nat → BM (Option Nat)
  | [] => pure none
  | i :: rest => do
    let c? ← getChild n i
    if c? = some target then pure (some selfA)
    else do
      let found ← rec c?
      match found with
      | some p => pure (some p)
      | none => findParentLoop rec n selfA target rest

/-- The `BTree.findParent` method: `nil` when the root is the target or a
leaf; otherwise scans the children (note that `getChild` can allocate).
Dereferencing a `nil` root panics, exactly as `root.typ` does in Go. -/
def findParent : Nat → Option Nat → Nat → BM (Option Nat)
  | 0, _, _ => BM.outOfFuel
  | fuel + 1, rootA?, target =>
    if rootA? = some target then pure none
    else do
      let n ← readNode rootA?
      if n.typ = BNODE_LEAF then pure none
      else
        findParentLoop (fun c? => findParent fuel c? target) n (rootA?.getD 0)
          target (List.range n.pointers.length)

/-- Position loop of `BTree.insertInParent`: index of the first separator
greater than the promoted key, else the key count. -/
def insertParentPos (key : Bytes) (ks : List Bytes) : Nat :=
  ks.findIdx (fun k => bytesCompare key k < 0)

/-- The `BTree.insertInParent` method: a split root gets a fresh internal
root holding the promoted key and the two halves; otherwise the promoted key
and the new sibling pointer go into the parent (found by `findParent`; a
missing parent is `panic("parent not found")`), splitting the parent in turn
when it overflows.  `setChild(pos+1, newNode)` overwrites the pointer slot
`pos+1` — the Go code never shifts the pointer array. -/
def insertInParent : Nat → Nat → Bytes → Option Nat → BM Unit
  | 0, _, _, _ => BM.outOfFuel
  | fuel + 1, oldA, key, newA? => do
    let s ← BM.getState
    if oldA = s.root then do
      let rootA ← allocNode (NewNode BNODE_NODE)
      let rn ← readNode (some rootA)
      let rn1 ← liftG (rn.insertKV 0 key [])
      writeNode rootA rn1
      setChild rootA 0 (some oldA)
      setChild rootA 1 newA?
      BM.modify (fun st => { st with root := rootA })
    else do
      let p? ← findParent (fuel + 1) (some s.root) oldA
      match p? with
      | none => BM.panic
      | some pA => do
        let p ← readNode (some pA)
        let pos := insertParentPos key p.keys
        let p1 ← liftG (p.insertKV pos key [])
        writeNode pA p1
        setChild pA (pos + 1) newA?
        let p2 ← readNode (some pA)
        if p2.isFull then do
          let (left, right?, promoted) ← liftG p2.split
          writeNode pA left
          let rA? ← match right? with
            | some rn => do
                let a ← allocNode rn
                pure (some a)
            | none => pure none
          insertInParent fuel pA promoted rA?
        else pure ()

/-- The `BTree.Insert` method: validates the size bounds, descends to the
target leaf, inserts there, and splits the leaf (propagating upward with
`insertInParent`) when the leaf reports full.  The Go `Split` mutates the
receiver — written back in place — and returns the fresh right sibling. -/
def BTree.insert (fuel : Nat) (key value : Bytes) : BM (Option BErr) :=
  if key.length > BTREE_MAX_KEY_SIZE then pure (some .keyTooLarge)
  else if value.length > BTREE_MAX_VAL_SIZE then pure (some .valueTooLarge)
  else do
    let s ← BM.getState
    let leafA ← findLeaf fuel (some s.root) key
    let r ← insertInLeaf leafA key value
    match r with
    | some e => pure (some e)
    | none => do
      let leaf ← readNode (some leafA)
      if leaf.isFull then do
        let (left, right?, promoted) ← liftG leaf.split
        writeNode leafA left
        let rA? ← match right? with
          | some rn => do
              let a ← allocNode rn
              pure (some a)
          | none => pure none
        insertInParent fuel leafA promoted rA?
      else pure ()
      BM.modify (fun st => { st with size := st.size + 1 })
      pure none

/-- Observable result of `BTree.Get`. -/
inductive GetRes where
  | found (v : Bytes)
  | notFound
deriving DecidableEq

/-- The `BTree.Get` method: descends to the leaf and scans it for an exact
match, returning the decoded value or `errors.New("key not found")`. -/
def BTree.get (fuel : Nat) (key : Bytes) : BM GetRes := do
  let s ← BM.getState
  let leafA ← findLeaf fuel (some s.root) key
  let leaf ← readNode (some leafA)
  match leaf.keys.findIdx? (fun k => bytesCompare key k = 0) with
  | some i => do
    let v ← liftG (leaf.getValue i)
    pure (.found v)
  | none => pure .notFound

/-- The `BTree.redistribute` stub of `btree.go`: its body is empty
(a comment says the full logic remains to be implemented). -/
def BTree.redistribute (_left _right _parent : Nat) (_pos : Nat) : BM Unit :=
  pure ()

/-- The `BTree.merge` stub of `btree.go`: its body is empty
(a comment says the full logic remains to be implemented). -/
def BTree.merge (_left _right _parent : Nat) (_pos : Nat) : BM Unit :=
  pure ()

/-- The `BTree.rebalance` method: locates the parent and the position of
the node among its children (a miss is `panic("node not found in parent")`),
then tries the left sibling, the right sibling (note the second
`parent.children()` call in the Go condition), and finally merges — where
`redistribute` and `merge` are the empty stubs above.  Dereferencing a `nil`
sibling for `IsFull` panics. -/
def BTree.rebalance (fuel : Nat) (a : Nat) : BM Unit := do
  let s ← BM.getState
  let p? ← findParent fuel (some s.root) a
  match p? with
  | none => pure ()
  | some pA => do
    let p ← readNode (some pA)
    let cs ← children p
    match cs.findIdx? (fun c => c = some a) with
    | none => BM.panic
    | some pos => do
      let leftDone ←
        if pos > 0 then do
          let ls? ← getChild p (pos - 1)
          let ls ← readNode ls?
          if ¬ ls.isFull then do
            BTree.redistribute (ls?.getD 0) a pA (pos - 1)
            pure true
          else pure false
        else pure false
      if leftDone then pure ()
      else do
        let cs2 ← children p
        let rightDone ←
          if pos + 1 < cs2.length then do
            let rs? ← getChild p (pos + 1)
            let rs ← readNode rs?
            if ¬ rs.isFull then do
              BTree.redistribute a (rs?.getD 0) pA pos
              pure true
            else pure false
          else pure false
        if rightDone then pure ()
        else
          if pos > 0 then do
            let ls? ← getChild p (pos - 1)
            BTree.merge (ls?.getD 0) a pA (pos - 1)
          else do
            let rs? ← getChild p (pos + 1)
            BTree.merge a (rs?.getD 0) pA pos

/-- The `BTree.Delete` method: descends to the leaf, finds the key's
position (`"key not found"` when absent), removes the entry, and calls
`rebalance` when the mutated leaf is empty and is not the root. -/
def BTree.delete (fuel : Nat) (key : Bytes) : BM (Option BErr) := do
  let s ← BM.getState
  let leafA ← findLeaf fuel (some s.root) key
  let leaf ← readNode (some leafA)
  match leaf.keys.findIdx? (fun k => bytesCompare key k = 0) with
  | none => pure (some .keyNotFound)
  | some pos => do
    let leaf1 ← liftG (leaf.removeKV pos)
    writeNode leafA leaf1
    let leaf2 ← readNode (some leafA)
    let s1 ← BM.getState
    if leaf2.isEmpty ∧ leafA ≠ s1.root then BTree.rebalance fuel leafA
    else pure ()
    BM.modify (fun st => { st with size := st.size - 1 })
    pure none

/-- The `NewBTree` constructor: a fresh leaf root; the process-wide
`nodeRelationships` map starts empty and `nextNodeID` at 1. -/
def newBTreeState : BTreeState :=
  { heap := [(0, NewNode BNODE_LEAF)], rel := [], nextNodeID := 1,
    nextAddr := 1, root := 0, size := 0 }

/-- A public-API operation on the index. -/
inductive Op where
  | put (k v : Bytes)
  | get (k : Bytes)
  | del (k : Bytes)

/-- Observable outcome of one operation: the returned error (or its
absence), the `Get` result, a runtime panic, or fuel exhaustion of the
model. -/
inductive Obs where
  | putR (e : Option BErr)
  | getR (r : GetRes)
  | delR (e : Option BErr)
  | panicked
  | outOfFuel
deriving DecidableEq

/-- One public-API call on the B+Tree. -/
def stepOp (fuel : Nat) : Op → BM Obs
  | .put k v => do
    let e ← BTree.insert fuel k v
    pure (.putR e)
  | .get k => do
    let r ← BTree.get fuel k
    pure (.getR r)
  | .del k => do
    let e ← BTree.delete fuel k
    pure (.delR e)

/-- Run of an operation sequence against the B+Tree: the observations of
each call and the final state (a panic ends the run, is the last
observation, and leaves no state — the Go process crashes there). -/
def runFull (fuel : Nat) : List Op → BTreeState → List Obs × GRes BTreeState
  | [], s => ([], .ok s)
  | op :: rest, s =>
    match stepOp fuel op s with
    | .ok (o, s1) =>
      let r := runFull fuel rest s1
      (o :: r.1, r.2)
    | .panicked => ([.panicked], .panicked)
    | .oof => ([.outOfFuel], .oof)

/-- Modelled from the spec: the reference map of claim C1 — a map driven by
the same operation sequence, with `DUPLICATE_KEY` on inserting a present
key and `NOT_FOUND` on reading or deleting an absent key.  Keys are unique,
so an association list is observationally the sorted map. -/
def specMapStep : Op → List (Bytes × Bytes) → Obs × List (Bytes × Bytes)
  | .put k v, m =>
    if (m.find? (fun p => p.1 = k)).isSome then (.putR (some .keyExists), m)
    else (.putR none, m ++ [(k, v)])
  | .get k, m =>
    match (m.find? (fun p => p.1 = k)).map (·.2) with
    | some v => (.getR (.found v), m)
    | none => (.getR .notFound, m)
  | .del k, m =>
    if (m.find? (fun p => p.1 = k)).isSome then
      (.delR none, m.filter (fun p => p.1 ≠ k))
    else (.delR (some .keyNotFound), m)

/-- Run of an operation sequence against the reference map. -/
def runSpecMap : List Op → List (Bytes × Bytes) → List Obs
  | [], _ => []
  | op :: rest, m =>
    let r := specMapStep op m
    r.1 :: runSpecMap rest r.2

/-! Evaluation lemmas for the monad, used to execute concrete runs
symbolically (the payloads involved in page splits are thousands of bytes,
so runs are evaluated by rewriting rather than by kernel reduction). -/

/-- Application of a bound computation to a state. -/
theorem BM.bind_apply {α β : Type} (m : BM α) (f : α → BM β) (s : BTreeState) :
    (m >>= f) s =
      match m s with
      | .ok (a, s1) => f a s1
      | .panicked => .panicked
      | .oof => .oof := rfl

/-- Application of a pure computation to a state. -/
theorem BM.pure_apply {α : Type} (a : α) (s : BTreeState) :
    (pure a : BM α) s = .ok (a, s) := rfl

/-- Application of `BM.getState`. -/
theorem BM.getState_apply (s : BTreeState) : BM.getState s = .ok (s, s) := rfl

/-- Application of `BM.modify`. -/
theorem BM.modify_apply (f : BTreeState → BTreeState) (s : BTreeState) :
    BM.modify f s = .ok ((), f s) := rfl


/-! Concrete executions used by claims C1, C6 and C7.  The payloads involved
in page splits are thousands of bytes, so these runs are evaluated by
rewriting with the boundary lemmas below instead of kernel reduction. -/


/-- Test payload: a 2039-byte value, the smallest that makes two one-byte-key
entries fill a page. -/
def Vc : Bytes := List.replicate 2039 118

theorem Vc_length : Vc.length = 2039 := by rw [Vc, List.length_replicate]

theorem Vc_take (x : Bytes) : (Vc ++ x).take 2039 = Vc := by
  have h : (2039 : Nat) = Vc.length := Vc_length.symm
  rw [h, List.take_left]

theorem Vc_drop (x : Bytes) : (Vc ++ x).drop 2039 = x := by
  have h : (2039 : Nat) = Vc.length := Vc_length.symm
  rw [h, List.drop_left]

theorem Vc_take_self : Vc.take 2039 = Vc :=
  List.take_of_length_le (by rw [Vc_length])

theorem Vc_map_mod : Vc.map (fun b => b % 256) = Vc := by
  rw [Vc, List.map_replicate]

/-- Encoded leaf entry `|1|2039|[98]|Vc|`. -/
def Eb : Bytes := 0 :: 1 :: 7 :: 247 :: 98 :: Vc

/-- Encoded leaf entry `|1|2039|[100]|Vc|`. -/
def Ed : Bytes := 0 :: 1 :: 7 :: 247 :: 100 :: Vc

/-- Encoded leaf entry `|1|2039|[97]|Vc|`. -/
def Ea : Bytes := 0 :: 1 :: 7 :: 247 :: 97 :: Vc

theorem Eb_length : Eb.length = 2044 := by simp [Eb, Vc_length]
theorem Ed_length : Ed.length = 2044 := by simp [Ed, Vc_length]
theorem Ea_length : Ea.length = 2044 := by simp [Ea, Vc_length]

theorem Eb_append_take (x : Bytes) : (Eb ++ x).take 2044 = Eb := by
  simp only [Eb, List.cons_append, List.take_succ_cons]
  rw [Vc_take]

theorem Eb_append_drop (x : Bytes) : (Eb ++ x).drop 2044 = x := by
  simp only [Eb, List.cons_append, List.drop_succ_cons]
  rw [Vc_drop]

theorem Ea_append_take (x : Bytes) : (Ea ++ x).take 2044 = Ea := by
  simp only [Ea, List.cons_append, List.take_succ_cons]
  rw [Vc_take]

theorem Ea_append_drop (x : Bytes) : (Ea ++ x).drop 2044 = x := by
  simp only [Ea, List.cons_append, List.drop_succ_cons]
  rw [Vc_drop]


theorem ikv_b : Node.insertKV ⟨2, 0, [], [], []⟩ 0 [98] Vc =
    .ok ⟨2, 1, [], [0], Eb⟩ := by
  simp [Node.insertKV, Vc_length, Vc_take_self, Vc_map_mod, Eb]

theorem keys_b (nk : Nat) (ps : List Nat) (h : nk = 1) :
    Node.keys ⟨2, nk, ps, [0], Eb⟩ = [[98]] := by
  subst h
  simp [Node.keys, Node.keyAt, Eb, Vc_length, List.range_succ]

theorem isFull_b : Node.isFull ⟨2, 1, [], [0], Eb⟩ = false := by
  simp [Node.isFull, Node.size, Eb_length, BTREE_PAGE_SIZE]

theorem ikv_bd : Node.insertKV ⟨2, 1, [], [0], Eb⟩ 1 [100] Vc =
    .ok ⟨2, 2, [], [0, 2044], Eb ++ Ed⟩ := by
  simp [Node.insertKV, Vc_length, Vc_take_self, Vc_map_mod, Eb_length, Ed]

theorem isFull_bd : Node.isFull ⟨2, 2, [], [0, 2044], Eb ++ Ed⟩ = true := by
  simp [Node.isFull, Node.size, List.length_append, Eb_length, Ed_length, BTREE_PAGE_SIZE]

theorem split_bd : Node.split ⟨2, 2, [], [0, 2044], Eb ++ Ed⟩ =
    .ok (⟨2, 1, [], [0], Eb⟩, some ⟨2, 1, [], [0], Ed⟩, [100]) := by
  simp [Node.split, List.length_append, Eb_length, Ed_length, BNODE_NODE,
        Eb_append_take, Eb_append_drop, Ed, Vc_length]


/-- Leaf after the first insert. -/
def S1 : BTreeState :=
  { heap := [(0, ⟨2, 1, [], [0], Eb⟩)], rel := [], nextNodeID := 1, nextAddr := 1,
    root := 0, size := 1 }


theorem ikv_r100 : Node.insertKV ⟨1, 0, [], [], []⟩ 0 [100] [] =
    .ok ⟨1, 1, [], [0], [0, 1, 0, 0, 100]⟩ := by
  simp [Node.insertKV]

/-- State after the second insert: split leaf, fresh internal root. -/
def S2 : BTreeState :=
  { heap := [(2, ⟨1, 1, [1, 2], [0], [0, 1, 0, 0, 100]⟩),
             (1, ⟨2, 1, [], [0], Ed⟩),
             (0, ⟨2, 1, [], [0], Eb⟩)],
    rel := [(2, 1), (1, 0)], nextNodeID := 3, nextAddr := 3, root := 2, size := 2 }


theorem fl_S1 : findLeaf 10 (some 0) [100] S1 = .ok (0, S1) := by
  simp [findLeaf, readNode, S1, BTreeState.node, BNODE_LEAF, BM.bind_apply, BM.pure_apply]

example : Node.keys ⟨2, 1, [], [0], Eb⟩ = [[98]] := by simp [keys_b]
example : insertLeafPos [100] [[98]] 0 = some 1 := by simp [insertLeafPos, bytesCompare]

theorem keys_d (nk : Nat) (ps : List Nat) (h : nk = 1) :
    Node.keys ⟨2, nk, ps, [0], Ed⟩ = [[100]] := by
  subst h
  simp [Node.keys, Node.keyAt, Ed, Vc_length, List.range_succ]

theorem keys_a (nk : Nat) (ps : List Nat) (h : nk = 1) :
    Node.keys ⟨2, nk, ps, [0], Ea⟩ = [[97]] := by
  subst h
  simp [Node.keys, Node.keyAt, Ea, Vc_length, List.range_succ]

theorem keys_r (ps : List Nat) :
    Node.keys ⟨1, 1, ps, [0], [0, 1, 0, 0, 100]⟩ = [[100]] := by
  simp [Node.keys, Node.keyAt, List.range_succ]

theorem keys_r2 (ps : List Nat) :
    Node.keys ⟨1, 2, ps, [0, 5], [0, 1, 0, 0, 98, 0, 1, 0, 0, 100]⟩ = [[98], [100]] := by
  simp [Node.keys, Node.keyAt, List.range_succ]

theorem isFull_d : Node.isFull ⟨2, 1, [], [0], Ed⟩ = false := by
  simp [Node.isFull, Node.size, Ed_length, BTREE_PAGE_SIZE]

theorem ikv_ab : Node.insertKV ⟨2, 1, [], [0], Eb⟩ 0 [97] Vc =
    .ok ⟨2, 2, [], [0, 2044], Ea ++ Eb⟩ := by
  simp [Node.insertKV, Vc_length, Vc_take_self, Vc_map_mod, Eb_length, Ea]

theorem isFull_ab : Node.isFull ⟨2, 2, [], [0, 2044], Ea ++ Eb⟩ = true := by
  simp [Node.isFull, Node.size, List.length_append, Ea_length, Eb_length, BTREE_PAGE_SIZE]

theorem split_ab : Node.split ⟨2, 2, [], [0, 2044], Ea ++ Eb⟩ =
    .ok (⟨2, 1, [], [0], Ea⟩, some ⟨2, 1, [], [0], Eb⟩, [98]) := by
  simp [Node.split, List.length_append, Ea_length, Eb_length, BNODE_NODE,
        Ea_append_take, Ea_append_drop, Eb, Vc_length]

theorem ikv_r98 : Node.insertKV ⟨1, 1, [1, 2], [0], [0, 1, 0, 0, 100]⟩ 0 [98] [] =
    .ok ⟨1, 2, [1, 2], [0, 5], [0, 1, 0, 0, 98, 0, 1, 0, 0, 100]⟩ := by
  simp [Node.insertKV]

theorem isFull_r2 (ps : List Nat) (h : ps.length = 2) :
    Node.isFull ⟨1, 2, ps, [0, 5], [0, 1, 0, 0, 98, 0, 1, 0, 0, 100]⟩ = false := by
  simp [Node.isFull, Node.size, h, BTREE_PAGE_SIZE]

theorem rkv_b : Node.removeKV ⟨2, 1, [], [0], Eb⟩ 0 = .ok ⟨2, 0, [], [], []⟩ := by
  simp [Node.removeKV, Eb, Vc_length, Vc_drop]


/-- Overfull leaf state between `insertInLeaf` and the split. -/
def S1b : BTreeState :=
  { heap := [(0, ⟨2, 2, [], [0, 2044], Eb ++ Ed⟩)], rel := [], nextNodeID := 1,
    nextAddr := 1, root := 0, size := 1 }

theorem iil_S1 : insertInLeaf 0 [100] Vc S1 = .ok (none, S1b) := by
  simp only [insertInLeaf, BM.bind_apply, BM.pure_apply,
    show readNode (some 0) S1 = .ok (⟨2, 1, [], [0], Eb⟩, S1) from rfl,
    keys_b 1 [] rfl,
    show insertLeafPos [100] [[98]] 0 = some 1 by simp [insertLeafPos, bytesCompare],
    liftG, ikv_bd,
    show writeNode 0 ⟨2, 2, [], [0, 2044], Eb ++ Ed⟩ S1 = .ok ((), S1b) from rfl]

/-- State after the split of the root leaf: two leaves, no root yet. -/
def S1c : BTreeState :=
  { heap := [(1, ⟨2, 1, [], [0], Ed⟩), (0, ⟨2, 1, [], [0], Eb⟩)], rel := [],
    nextNodeID := 1, nextAddr := 2, root := 0, size := 1 }

/-- State after `insertInParent` made the fresh internal root. -/
def S2a : BTreeState :=
  { heap := [(2, ⟨1, 1, [1, 2], [0], [0, 1, 0, 0, 100]⟩),
             (1, ⟨2, 1, [], [0], Ed⟩),
             (0, ⟨2, 1, [], [0], Eb⟩)],
    rel := [(2, 1), (1, 0)], nextNodeID := 3, nextAddr := 3, root := 2, size := 1 }


theorem liftG_ok {α : Type} (a : α) (s : BTreeState) : liftG (.ok a) s = .ok (a, s) := rfl

theorem liftG_panicked {α : Type} (s : BTreeState) : (liftG (α := α) .panicked) s = .panicked := rfl


/-- Heap of `S1c` with the fresh empty internal root object. -/
def S1d : BTreeState :=
  { heap := [(2, ⟨1, 0, [], [], []⟩), (1, ⟨2, 1, [], [0], Ed⟩), (0, ⟨2, 1, [], [0], Eb⟩)],
    rel := [], nextNodeID := 1, nextAddr := 3, root := 0, size := 1 }

/-- Fresh root filled with the separator key. -/
def S1e : BTreeState :=
  { heap := [(2, ⟨1, 1, [], [0], [0, 1, 0, 0, 100]⟩), (1, ⟨2, 1, [], [0], Ed⟩),
             (0, ⟨2, 1, [], [0], Eb⟩)],
    rel := [], nextNodeID := 1, nextAddr := 3, root := 0, size := 1 }

/-- After `setChild 0` registered the left half. -/
def S1f : BTreeState :=
  { heap := [(2, ⟨1, 1, [1], [0], [0, 1, 0, 0, 100]⟩), (1, ⟨2, 1, [], [0], Ed⟩),
             (0, ⟨2, 1, [], [0], Eb⟩)],
    rel := [(1, 0)], nextNodeID := 2, nextAddr := 3, root := 0, size := 1 }

/-- After `setChild 1` registered the right half. -/
def S1g : BTreeState :=
  { heap := [(2, ⟨1, 1, [1, 2], [0], [0, 1, 0, 0, 100]⟩), (1, ⟨2, 1, [], [0], Ed⟩),
             (0, ⟨2, 1, [], [0], Eb⟩)],
    rel := [(2, 1), (1, 0)], nextNodeID := 3, nextAddr := 3, root := 0, size := 1 }

set_option maxRecDepth 4000 in
theorem iip_S1c : insertInParent 10 0 [100] (some 1) S1c = .ok ((), S2a) := by
  rw [insertInParent, BM.bind_apply, BM.getState_apply]
  simp only [show S1c.root = 0 from rfl, reduceIte]
  rw [BM.bind_apply, show allocNode (NewNode BNODE_NODE) S1c = .ok (2, S1d) from rfl]
  simp only []
  rw [BM.bind_apply, show readNode (some 2) S1d = .ok (⟨1, 0, [], [], []⟩, S1d) from rfl]
  simp only [ikv_r100]
  rw [BM.bind_apply]
  simp only [liftG_ok]
  rw [BM.bind_apply, show writeNode 2 ⟨1, 1, [], [0], [0, 1, 0, 0, 100]⟩ S1d = .ok ((), S1e) from rfl]
  simp only []
  rw [BM.bind_apply, show setChild 2 0 (some 0) S1e = .ok ((), S1f) from rfl]
  simp only []
  rw [BM.bind_apply, show setChild 2 1 (some 1) S1f = .ok ((), S1g) from rfl]
  simp only []
  rw [BM.modify_apply]
  rfl


/-- State with the left split half written back, before allocating the right. -/
def S1bw : BTreeState :=
  { heap := [(0, ⟨2, 1, [], [0], Eb⟩)], rel := [], nextNodeID := 1, nextAddr := 1,
    root := 0, size := 1 }

set_option maxRecDepth 4000 in
theorem ins_S1 : BTree.insert 10 [100] Vc S1 = .ok (none, S2) := by
  rw [BTree.insert,
      if_neg (show ¬ (([100] : Bytes).length > BTREE_MAX_KEY_SIZE) by decide),
      if_neg (show ¬ (Vc.length > BTREE_MAX_VAL_SIZE) by rw [Vc_length]; decide)]
  rw [BM.bind_apply, BM.getState_apply]
  simp only []
  rw [BM.bind_apply, show S1.root = 0 from rfl, fl_S1]
  simp only []
  rw [BM.bind_apply, iil_S1]
  simp only []
  rw [BM.bind_apply, show readNode (some 0) S1b = .ok (⟨2, 2, [], [0, 2044], Eb ++ Ed⟩, S1b) from rfl]
  simp only []
  rw [isFull_bd, if_pos rfl]
  rw [BM.bind_apply]
  simp only [split_bd, liftG_ok]
  rw [BM.bind_apply, show writeNode 0 ⟨2, 1, [], [0], Eb⟩ S1b = .ok ((), S1bw) from rfl]
  simp only []
  rw [BM.bind_apply, show allocNode ⟨2, 1, [], [0], Ed⟩ S1bw = .ok (1, S1c) from rfl]
  simp only []
  rw [BM.bind_apply, BM.pure_apply]
  simp only []
  rw [BM.bind_apply, iip_S1c]
  simp only []
  rw [BM.bind_apply, BM.modify_apply]
  simp only [BM.pure_apply]
  rfl


theorem ins_S0 : BTree.insert 10 [98] Vc newBTreeState = .ok (none, S1) := by
  rw [BTree.insert,
      if_neg (show ¬ (([98] : Bytes).length > BTREE_MAX_KEY_SIZE) by decide),
      if_neg (show ¬ (Vc.length > BTREE_MAX_VAL_SIZE) by rw [Vc_length]; decide)]
  rw [BM.bind_apply, BM.getState_apply]
  simp only []
  rw [BM.bind_apply, show findLeaf 10 (some newBTreeState.root) [98] newBTreeState =
    .ok (0, newBTreeState) from rfl]
  simp only []
  rw [BM.bind_apply]
  rw [show insertInLeaf 0 [98] Vc newBTreeState =
        ((liftG (Node.insertKV ⟨2, 0, [], [], []⟩ 0 [98] Vc)) >>= fun leaf1 =>
          writeNode 0 leaf1 >>= fun _ => pure none) newBTreeState from rfl]
  rw [BM.bind_apply]
  simp only [ikv_b, liftG_ok]
  rw [BM.bind_apply, show writeNode 0 ⟨2, 1, [], [0], Eb⟩ newBTreeState =
    .ok ((), { newBTreeState with heap := [(0, ⟨2, 1, [], [0], Eb⟩)] }) from rfl]
  simp only [BM.pure_apply]
  rw [BM.bind_apply, show readNode (some 0) { newBTreeState with heap := [(0, ⟨2, 1, [], [0], Eb⟩)] } =
    .ok (⟨2, 1, [], [0], Eb⟩, { newBTreeState with heap := [(0, ⟨2, 1, [], [0], Eb⟩)] }) from rfl]
  simp only []
  rw [isFull_b, if_neg (show ¬ ((false : Bool) = true) by decide)]
  rw [BM.bind_apply, BM.pure_apply]
  simp only []
  rw [BM.bind_apply, BM.modify_apply]
  simp only [BM.pure_apply]
  rfl


/-- Overfull left leaf, before the second split. -/
def S2b : BTreeState :=
  { heap := [(2, ⟨1, 1, [1, 2], [0], [0, 1, 0, 0, 100]⟩),
             (1, ⟨2, 1, [], [0], Ed⟩),
             (0, ⟨2, 2, [], [0, 2044], Ea ++ Eb⟩)],
    rel := [(2, 1), (1, 0)], nextNodeID := 3, nextAddr := 3, root := 2, size := 2 }

theorem iil_S2 : insertInLeaf 0 [97] Vc S2 = .ok (none, S2b) := by
  simp only [insertInLeaf, BM.bind_apply, BM.pure_apply,
    show readNode (some 0) S2 = .ok (⟨2, 1, [], [0], Eb⟩, S2) from rfl,
    keys_b 1 [] rfl,
    show insertLeafPos [97] [[98]] 0 = some 0 by simp [insertLeafPos, bytesCompare],
    liftG, ikv_ab,
    show writeNode 0 ⟨2, 2, [], [0, 2044], Ea ++ Eb⟩ S2 = .ok ((), S2b) from rfl]

/-- Left half written back after the second split. -/
def S2bw : BTreeState :=
  { heap := [(2, ⟨1, 1, [1, 2], [0], [0, 1, 0, 0, 100]⟩),
             (1, ⟨2, 1, [], [0], Ed⟩),
             (0, ⟨2, 1, [], [0], Ea⟩)],
    rel := [(2, 1), (1, 0)], nextNodeID := 3, nextAddr := 3, root := 2, size := 2 }

/-- Right half of the second split allocated at address 3. -/
def S2c : BTreeState :=
  { heap := [(3, ⟨2, 1, [], [0], Eb⟩),
             (2, ⟨1, 1, [1, 2], [0], [0, 1, 0, 0, 100]⟩),
             (1, ⟨2, 1, [], [0], Ed⟩),
             (0, ⟨2, 1, [], [0], Ea⟩)],
    rel := [(2, 1), (1, 0)], nextNodeID := 3, nextAddr := 4, root := 2, size := 2 }

/-- Separator [98] spliced into the root. -/
def S2d : BTreeState :=
  { heap := [(3, ⟨2, 1, [], [0], Eb⟩),
             (2, ⟨1, 2, [1, 2], [0, 5], [0, 1, 0, 0, 98, 0, 1, 0, 0, 100]⟩),
             (1, ⟨2, 1, [], [0], Ed⟩),
             (0, ⟨2, 1, [], [0], Ea⟩)],
    rel := [(2, 1), (1, 0)], nextNodeID := 3, nextAddr := 4, root := 2, size := 2 }

/-- Pointer slot 1 of the root overwritten with the new sibling: the leaf at
address 1 is no longer referenced by any pointer. -/
def S2e : BTreeState :=
  { heap := [(3, ⟨2, 1, [], [0], Eb⟩),
             (2, ⟨1, 2, [1, 3], [0, 5], [0, 1, 0, 0, 98, 0, 1, 0, 0, 100]⟩),
             (1, ⟨2, 1, [], [0], Ed⟩),
             (0, ⟨2, 1, [], [0], Ea⟩)],
    rel := [(3, 3), (2, 1), (1, 0)], nextNodeID := 4, nextAddr := 4, root := 2, size := 2 }

set_option maxRecDepth 4000 in
theorem iip_S2c : insertInParent 10 0 [98] (some 3) S2c = .ok ((), S2e) := by
  rw [insertInParent, BM.bind_apply, BM.getState_apply]
  simp only [show S2c.root = 2 from rfl]
  rw [if_neg (show ¬ ((0 : Nat) = 2) by decide)]
  rw [BM.bind_apply, show findParent 10 (some 2) 0 S2c = .ok (some 2, S2c) from rfl]
  simp only []
  rw [BM.bind_apply, show readNode (some 2) S2c =
    .ok (⟨1, 1, [1, 2], [0], [0, 1, 0, 0, 100]⟩, S2c) from rfl]
  simp only []
  rw [show insertParentPos [98] (Node.keys ⟨1, 1, [1, 2], [0], [0, 1, 0, 0, 100]⟩) = 0 from rfl]
  rw [BM.bind_apply]
  simp only [ikv_r98, liftG_ok]
  rw [BM.bind_apply, show writeNode 2 ⟨1, 2, [1, 2], [0, 5], [0, 1, 0, 0, 98, 0, 1, 0, 0, 100]⟩ S2c =
    .ok ((), S2d) from rfl]
  simp only []
  rw [BM.bind_apply, show setChild 2 1 (some 3) S2d = .ok ((), S2e) from rfl]
  simp only []
  rw [BM.bind_apply, show readNode (some 2) S2e =
    .ok (⟨1, 2, [1, 3], [0, 5], [0, 1, 0, 0, 98, 0, 1, 0, 0, 100]⟩, S2e) from rfl]
  simp only []
  rw [show Node.isFull ⟨1, 2, [1, 3], [0, 5], [0, 1, 0, 0, 98, 0, 1, 0, 0, 100]⟩ = false from rfl,
      if_neg (show ¬ ((false : Bool) = true) by decide)]
  rw [BM.pure_apply]


/-- Final state of the three-insert sequence: the root claims two separator
keys and only two pointer slots; the leaf holding [100] (address 1) has been
orphaned by the pointer overwrite in `insertInParent`. -/
def S3 : BTreeState :=
  { heap := [(3, ⟨2, 1, [], [0], Eb⟩),
             (2, ⟨1, 2, [1, 3], [0, 5], [0, 1, 0, 0, 98, 0, 1, 0, 0, 100]⟩),
             (1, ⟨2, 1, [], [0], Ed⟩),
             (0, ⟨2, 1, [], [0], Ea⟩)],
    rel := [(3, 3), (2, 1), (1, 0)], nextNodeID := 4, nextAddr := 4, root := 2, size := 3 }

set_option maxRecDepth 4000 in
theorem ins_S2 : BTree.insert 10 [97] Vc S2 = .ok (none, S3) := by
  rw [BTree.insert,
      if_neg (show ¬ (([97] : Bytes).length > BTREE_MAX_KEY_SIZE) by decide),
      if_neg (show ¬ (Vc.length > BTREE_MAX_VAL_SIZE) by rw [Vc_length]; decide)]
  rw [BM.bind_apply, BM.getState_apply]
  simp only []
  rw [BM.bind_apply, show S2.root = 2 from rfl,
      show findLeaf 10 (some 2) [97] S2 = .ok (0, S2) from rfl]
  simp only []
  rw [BM.bind_apply, iil_S2]
  simp only []
  rw [BM.bind_apply, show readNode (some 0) S2b =
    .ok (⟨2, 2, [], [0, 2044], Ea ++ Eb⟩, S2b) from rfl]
  simp only []
  rw [isFull_ab, if_pos rfl]
  rw [BM.bind_apply]
  simp only [split_ab, liftG_ok]
  rw [BM.bind_apply, show writeNode 0 ⟨2, 1, [], [0], Ea⟩ S2b = .ok ((), S2bw) from rfl]
  simp only []
  rw [BM.bind_apply, show allocNode ⟨2, 1, [], [0], Eb⟩ S2bw = .ok (3, S2c) from rfl]
  simp only []
  rw [BM.bind_apply, BM.pure_apply]
  simp only []
  rw [BM.bind_apply, iip_S2c]
  simp only []
  rw [BM.bind_apply, BM.modify_apply]
  simp only [BM.pure_apply]
  rfl

theorem get_S3 : BTree.get 10 [100] S3 = .panicked := by
  rw [BTree.get, BM.bind_apply, BM.getState_apply]
  simp only []
  rw [BM.bind_apply, show S3.root = 2 from rfl,
      show findLeaf 10 (some 2) [100] S3 = .panicked from rfl]


/-- State after the delete emptied the leaf at address 0 (not the root). -/
def S6a : BTreeState :=
  { heap := [(2, ⟨1, 1, [1, 2], [0], [0, 1, 0, 0, 100]⟩),
             (1, ⟨2, 1, [], [0], Ed⟩),
             (0, ⟨2, 0, [], [], []⟩)],
    rel := [(2, 1), (1, 0)], nextNodeID := 3, nextAddr := 3, root := 2, size := 2 }

/-- Final state of the delete: `rebalance` found a non-full right sibling and
called the empty `redistribute` stub, so the empty non-root leaf remains. -/
def S6 : BTreeState :=
  { heap := [(2, ⟨1, 1, [1, 2], [0], [0, 1, 0, 0, 100]⟩),
             (1, ⟨2, 1, [], [0], Ed⟩),
             (0, ⟨2, 0, [], [], []⟩)],
    rel := [(2, 1), (1, 0)], nextNodeID := 3, nextAddr := 3, root := 2, size := 1 }

set_option maxRecDepth 4000 in
theorem reb_S6a : BTree.rebalance 10 0 S6a = .ok ((), S6a) := by
  rw [BTree.rebalance, BM.bind_apply, BM.getState_apply]
  simp only []
  rw [BM.bind_apply, show S6a.root = 2 from rfl,
      show findParent 10 (some 2) 0 S6a = .ok (some 2, S6a) from rfl]
  simp only []
  rw [BM.bind_apply, show readNode (some 2) S6a =
    .ok (⟨1, 1, [1, 2], [0], [0, 1, 0, 0, 100]⟩, S6a) from rfl]
  simp only []
  rw [BM.bind_apply, show children ⟨1, 1, [1, 2], [0], [0, 1, 0, 0, 100]⟩ S6a =
    .ok ([some 0, some 1], S6a) from rfl]
  simp only []
  rw [show List.findIdx? (fun c => decide (c = some 0)) [some 0, some 1] = some 0 from rfl]
  simp only []
  rw [if_neg (show ¬ ((0 : Nat) > 0) by decide)]
  rw [BM.bind_apply, BM.pure_apply]
  simp only []
  rw [if_neg (show ¬ ((false : Bool) = true) by decide)]
  rw [BM.bind_apply, show children ⟨1, 1, [1, 2], [0], [0, 1, 0, 0, 100]⟩ S6a =
    .ok ([some 0, some 1], S6a) from rfl]
  simp only []
  rw [if_pos (show (0 : Nat) + 1 < List.length [some (0 : Nat), some 1] by decide)]
  rw [BM.bind_apply, show getChild ⟨1, 1, [1, 2], [0], [0, 1, 0, 0, 100]⟩ 1 S6a =
    .ok (some 1, S6a) from rfl]
  simp only []
  rw [BM.bind_apply, show readNode (some 1) S6a = .ok (⟨2, 1, [], [0], Ed⟩, S6a) from rfl]
  simp only []
  rw [isFull_d]
  rw [if_pos (show ¬ ((false : Bool) = true) by decide)]
  rw [BM.bind_apply, show BTree.redistribute 0 ((some (1 : Nat)).getD 0) 2 0 S6a = .ok ((), S6a) from rfl]
  simp only []
  rw [BM.bind_apply, BM.pure_apply]
  simp only []
  rw [if_pos trivial, BM.pure_apply]


set_option maxRecDepth 4000 in
theorem del_S2 : BTree.delete 10 [98] S2 = .ok (none, S6) := by
  rw [BTree.delete, BM.bind_apply, BM.getState_apply]
  simp only []
  rw [BM.bind_apply, show S2.root = 2 from rfl,
      show findLeaf 10 (some 2) [98] S2 = .ok (0, S2) from rfl]
  simp only []
  rw [BM.bind_apply, show readNode (some 0) S2 = .ok (⟨2, 1, [], [0], Eb⟩, S2) from rfl]
  simp only [keys_b 1 [] rfl]
  rw [show List.findIdx? (fun k => decide (bytesCompare [98] k = 0)) [[98]] = some 0 from rfl]
  simp only []
  rw [BM.bind_apply]
  simp only [rkv_b, liftG_ok]
  rw [BM.bind_apply, show writeNode 0 ⟨2, 0, [], [], []⟩ S2 = .ok ((), S6a) from rfl]
  simp only []
  rw [BM.bind_apply, show readNode (some 0) S6a = .ok (⟨2, 0, [], [], []⟩, S6a) from rfl]
  simp only []
  rw [BM.bind_apply, BM.getState_apply]
  simp only []
  rw [if_pos (show Node.isEmpty ⟨2, 0, [], [], []⟩ = true ∧ (0 : Nat) ≠ S6a.root by
        refine ⟨rfl, ?_⟩
        rw [show S6a.root = 2 from rfl]
        decide)]
  rw [BM.bind_apply, reb_S6a]
  simp only []
  rw [BM.bind_apply, BM.modify_apply]
  simp only [BM.pure_apply]
  rfl


/-- Failing operation sequence of claim C1 / C6: two inserts that split the
root leaf, then (C1) a third insert that splits the left leaf and loses the
right sibling, or (C6) a delete that empties a non-root leaf. -/
def c1ops : List Op := [.put [98] Vc, .put [100] Vc, .put [97] Vc, .get [100]]

/-- Operation sequence of claim C6. -/
def c6ops : List Op := [.put [98] Vc, .put [100] Vc, .del [98]]

theorem step_put_b : stepOp 10 (.put [98] Vc) newBTreeState = .ok (.putR none, S1) := by
  rw [stepOp, BM.bind_apply, ins_S0]
  simp only [BM.pure_apply]

theorem step_put_d : stepOp 10 (.put [100] Vc) S1 = .ok (.putR none, S2) := by
  rw [stepOp, BM.bind_apply, ins_S1]
  simp only [BM.pure_apply]

theorem step_put_a : stepOp 10 (.put [97] Vc) S2 = .ok (.putR none, S3) := by
  rw [stepOp, BM.bind_apply, ins_S2]
  simp only [BM.pure_apply]

theorem step_get_d : stepOp 10 (.get [100]) S3 = .panicked := by
  rw [stepOp, BM.bind_apply, get_S3]

theorem step_del_b : stepOp 10 (.del [98]) S2 = .ok (.delR none, S6) := by
  rw [stepOp, BM.bind_apply, del_S2]
  simp only [BM.pure_apply]

theorem runFull_c1 : runFull 10 c1ops newBTreeState =
    ([.putR none, .putR none, .putR none, .panicked], .panicked) := by
  rw [c1ops, runFull, step_put_b]
  simp only []
  rw [runFull, step_put_d]
  simp only []
  rw [runFull, step_put_a]
  simp only []
  rw [runFull, step_get_d]

theorem runFull_c6 : runFull 10 c6ops newBTreeState =
    ([.putR none, .putR none, .delR none], .ok S6) := by
  rw [c6ops, runFull, step_put_b]
  simp only []
  rw [runFull, step_put_d]
  simp only []
  rw [runFull, step_del_b]
  simp only []
  rw [runFull]

theorem runSpecMap_c1 : runSpecMap c1ops [] =
    [.putR none, .putR none, .putR none, .getR (.found Vc)] := rfl


/-- Test payload of claim C7: a maximum-size (3000-byte) value. -/
def R3 : Bytes := List.replicate 3000 118

theorem R3_length : R3.length = 3000 := by rw [R3, List.length_replicate]

theorem R3_take_self : R3.take 3000 = R3 :=
  List.take_of_length_le (by rw [R3_length])

theorem R3_map_mod : R3.map (fun b => b % 256) = R3 := by
  rw [R3, List.map_replicate]

/-- Encoded leaf entry `|1|3000|[99]|R3|`. -/
def Fc : Bytes := 0 :: 1 :: 11 :: 184 :: 99 :: R3

/-- Encoded leaf entry `|1|3000|[100]|R3|` appended after the key [99]
entry in the right split half. -/
def FcFd : Bytes := 0 :: 1 :: 11 :: 184 :: 99 :: (R3 ++ (0 :: 1 :: 11 :: 184 :: 100 :: R3))

/-- Data section of the leaf after the third insert. -/
def D3 : Bytes := 0 :: 1 :: 0 :: 0 :: 97 :: 0 :: 1 :: 0 :: 0 :: 98 :: Fc

/-- Data section of the overfull leaf after the fourth insert. -/
def D4 : Bytes := 0 :: 1 :: 0 :: 0 :: 97 :: 0 :: 1 :: 0 :: 0 :: 98 :: FcFd

theorem Fc_length : Fc.length = 3005 := by simp [Fc, R3_length]

theorem FcFd_length : FcFd.length = 6010 := by simp [FcFd, R3_length]

theorem D3_length : D3.length = 3015 := by simp [D3, Fc, R3_length]

theorem D4_length : D4.length = 6020 := by simp [D4, FcFd, R3_length]

theorem D3_append : D3 ++ (0 :: 1 :: 11 :: 184 :: 100 :: R3) = D4 := by
  simp only [D3, D4, Fc, FcFd, List.cons_append, List.append_assoc]

theorem D4_take : D4.take 10 = [0, 1, 0, 0, 97, 0, 1, 0, 0, 98] := by
  simp [D4]

theorem D4_drop : D4.drop 10 = FcFd := by
  simp [D4]

theorem ikv7_3 : Node.insertKV ⟨2, 2, [], [0, 5], [0, 1, 0, 0, 97, 0, 1, 0, 0, 98]⟩ 2 [99] R3 =
    .ok ⟨2, 3, [], [0, 5, 10], D3⟩ := by
  simp [Node.insertKV, R3_length, R3_take_self, R3_map_mod, D3, Fc]

theorem isFull_D3 : Node.isFull ⟨2, 3, [], [0, 5, 10], D3⟩ = false := by
  simp [Node.isFull, Node.size, D3_length, BTREE_PAGE_SIZE]

theorem keys_D3 : Node.keys ⟨2, 3, [], [0, 5, 10], D3⟩ = [[97], [98], [99]] := by
  simp [Node.keys, Node.keyAt, D3, Fc, R3_length, List.range_succ]

theorem insertKV_append_d100 (t nk : Nat) (ps offs : List Nat) (d : Bytes)
    (h : offs.length = nk) :
    Node.insertKV ⟨t, nk, ps, offs, d⟩ nk [100] R3 =
      .ok ⟨t, (nk + 1) % 65536, ps, offs ++ [d.length % 65536],
           d ++ (0 :: 1 :: 11 :: 184 :: 100 :: R3)⟩ := by
  simp only [Node.insertKV, R3_length, R3_take_self, R3_map_mod, if_pos rfl,
             if_neg (show ¬ nk > offs.length by omega)]
  norm_num [← h, List.take_of_length_le]
  rw [R3_map_mod, R3_take_self]

theorem ikv7_4 : Node.insertKV ⟨2, 3, [], [0, 5, 10], D3⟩ 3 [100] R3 =
    .ok ⟨2, 4, [], [0, 5, 10, 3015], D4⟩ := by
  rw [insertKV_append_d100 2 3 [] [0, 5, 10] D3 rfl, D3_length, D3_append]
  norm_num

theorem isFull_D4 : Node.isFull ⟨2, 4, [], [0, 5, 10, 3015], D4⟩ = true := by
  simp [Node.isFull, Node.size, D4_length, BTREE_PAGE_SIZE]

theorem split_D4 : Node.split ⟨2, 4, [], [0, 5, 10, 3015], D4⟩ =
    .ok (⟨2, 2, [], [0, 5], [0, 1, 0, 0, 97, 0, 1, 0, 0, 98]⟩,
         some ⟨2, 2, [], [0, 3005], FcFd⟩, [99]) := by
  simp [Node.split, D4_length, BNODE_NODE, D4_take, D4_drop, FcFd, R3_length]


/-- States of the C7 run: four inserts, sizes 5, 5, 3005, 3005 bytes. -/
def T1 : BTreeState :=
  { heap := [(0, ⟨2, 1, [], [0], [0, 1, 0, 0, 97]⟩)], rel := [], nextNodeID := 1,
    nextAddr := 1, root := 0, size := 1 }

def T2 : BTreeState :=
  { heap := [(0, ⟨2, 2, [], [0, 5], [0, 1, 0, 0, 97, 0, 1, 0, 0, 98]⟩)], rel := [],
    nextNodeID := 1, nextAddr := 1, root := 0, size := 2 }

def T3 : BTreeState :=
  { heap := [(0, ⟨2, 3, [], [0, 5, 10], D3⟩)], rel := [], nextNodeID := 1,
    nextAddr := 1, root := 0, size := 3 }

theorem ins7_1 : BTree.insert 10 [97] [] newBTreeState = .ok (none, T1) := rfl

theorem ins7_2 : BTree.insert 10 [98] [] T1 = .ok (none, T2) := rfl

set_option maxRecDepth 4000 in
theorem ins7_3 : BTree.insert 10 [99] R3 T2 = .ok (none, T3) := by
  rw [BTree.insert,
      if_neg (show ¬ (([99] : Bytes).length > BTREE_MAX_KEY_SIZE) by decide),
      if_neg (show ¬ (R3.length > BTREE_MAX_VAL_SIZE) by rw [R3_length]; decide)]
  rw [BM.bind_apply, BM.getState_apply]
  simp only []
  rw [BM.bind_apply, show T2.root = 0 from rfl,
      show findLeaf 10 (some 0) [99] T2 = .ok (0, T2) from rfl]
  simp only []
  rw [BM.bind_apply]
  rw [show insertInLeaf 0 [99] R3 T2 =
        ((liftG (Node.insertKV ⟨2, 2, [], [0, 5], [0, 1, 0, 0, 97, 0, 1, 0, 0, 98]⟩ 2 [99] R3)) >>=
          fun leaf1 => writeNode 0 leaf1 >>= fun _ => pure none) T2 from rfl]
  rw [BM.bind_apply]
  simp only [ikv7_3, liftG_ok]
  rw [BM.bind_apply, show writeNode 0 ⟨2, 3, [], [0, 5, 10], D3⟩ T2 =
    .ok ((), { T2 with heap := [(0, ⟨2, 3, [], [0, 5, 10], D3⟩)] }) from rfl]
  simp only [BM.pure_apply]
  rw [BM.bind_apply, show readNode (some 0) { T2 with heap := [(0, ⟨2, 3, [], [0, 5, 10], D3⟩)] } =
    .ok (⟨2, 3, [], [0, 5, 10], D3⟩, { T2 with heap := [(0, ⟨2, 3, [], [0, 5, 10], D3⟩)] }) from rfl]
  simp only []
  rw [isFull_D3, if_neg (show ¬ ((false : Bool) = true) by decide)]
  rw [BM.bind_apply, BM.pure_apply]
  simp only []
  rw [BM.bind_apply, BM.modify_apply]
  simp only [BM.pure_apply]
  rfl


/-- Overfull leaf after the fourth insert, before the split. -/
def T3b : BTreeState :=
  { heap := [(0, ⟨2, 4, [], [0, 5, 10, 3015], D4⟩)], rel := [], nextNodeID := 1,
    nextAddr := 1, root := 0, size := 3 }

theorem iil_T3 : insertInLeaf 0 [100] R3 T3 = .ok (none, T3b) := by
  simp only [insertInLeaf, BM.bind_apply, BM.pure_apply,
    show readNode (some 0) T3 = .ok (⟨2, 3, [], [0, 5, 10], D3⟩, T3) from rfl,
    keys_D3,
    show insertLeafPos [100] [[97], [98], [99]] 0 = some 3 by
      simp [insertLeafPos, bytesCompare],
    liftG, ikv7_4,
    show writeNode 0 ⟨2, 4, [], [0, 5, 10, 3015], D4⟩ T3 = .ok ((), T3b) from rfl]

/-- Left half written back. -/
def T3bw : BTreeState :=
  { heap := [(0, ⟨2, 2, [], [0, 5], [0, 1, 0, 0, 97, 0, 1, 0, 0, 98]⟩)], rel := [],
    nextNodeID := 1, nextAddr := 1, root := 0, size := 3 }

/-- Right half (6018 serialized bytes) allocated at address 1. -/
def T3c : BTreeState :=
  { heap := [(1, ⟨2, 2, [], [0, 3005], FcFd⟩),
             (0, ⟨2, 2, [], [0, 5], [0, 1, 0, 0, 97, 0, 1, 0, 0, 98]⟩)],
    rel := [], nextNodeID := 1, nextAddr := 2, root := 0, size := 3 }

/-- Final state of the C7 run. -/
def T4 : BTreeState :=
  { heap := [(2, ⟨1, 1, [1, 2], [0], [0, 1, 0, 0, 99]⟩),
             (1, ⟨2, 2, [], [0, 3005], FcFd⟩),
             (0, ⟨2, 2, [], [0, 5], [0, 1, 0, 0, 97, 0, 1, 0, 0, 98]⟩)],
    rel := [(2, 1), (1, 0)], nextNodeID := 3, nextAddr := 3, root := 2, size := 4 }

/-- Fresh empty internal root allocated at address 2. -/
def T3d : BTreeState :=
  { heap := [(2, ⟨1, 0, [], [], []⟩), (1, ⟨2, 2, [], [0, 3005], FcFd⟩),
             (0, ⟨2, 2, [], [0, 5], [0, 1, 0, 0, 97, 0, 1, 0, 0, 98]⟩)],
    rel := [], nextNodeID := 1, nextAddr := 3, root := 0, size := 3 }

/-- Root filled with the separator key [99]. -/
def T3e : BTreeState :=
  { heap := [(2, ⟨1, 1, [], [0], [0, 1, 0, 0, 99]⟩), (1, ⟨2, 2, [], [0, 3005], FcFd⟩),
             (0, ⟨2, 2, [], [0, 5], [0, 1, 0, 0, 97, 0, 1, 0, 0, 98]⟩)],
    rel := [], nextNodeID := 1, nextAddr := 3, root := 0, size := 3 }

/-- After `setChild 0`. -/
def T3f : BTreeState :=
  { heap := [(2, ⟨1, 1, [1], [0], [0, 1, 0, 0, 99]⟩), (1, ⟨2, 2, [], [0, 3005], FcFd⟩),
             (0, ⟨2, 2, [], [0, 5], [0, 1, 0, 0, 97, 0, 1, 0, 0, 98]⟩)],
    rel := [(1, 0)], nextNodeID := 2, nextAddr := 3, root := 0, size := 3 }

/-- After `setChild 1`. -/
def T3g : BTreeState :=
  { heap := [(2, ⟨1, 1, [1, 2], [0], [0, 1, 0, 0, 99]⟩), (1, ⟨2, 2, [], [0, 3005], FcFd⟩),
             (0, ⟨2, 2, [], [0, 5], [0, 1, 0, 0, 97, 0, 1, 0, 0, 98]⟩)],
    rel := [(2, 1), (1, 0)], nextNodeID := 3, nextAddr := 3, root := 0, size := 3 }

set_option maxRecDepth 4000 in
theorem iip_T3c : insertInParent 10 0 [99] (some 1) T3c =
    .ok ((), { T4 with size := 3 }) := by
  rw [insertInParent, BM.bind_apply, BM.getState_apply]
  simp only [show T3c.root = 0 from rfl, reduceIte]
  rw [BM.bind_apply, show allocNode (NewNode BNODE_NODE) T3c = .ok (2, T3d) from rfl]
  simp only []
  rw [BM.bind_apply, show readNode (some 2) T3d = .ok (⟨1, 0, [], [], []⟩, T3d) from rfl]
  simp only []
  rw [BM.bind_apply]
  simp only [show Node.insertKV ⟨1, 0, [], [], []⟩ 0 [99] [] =
    .ok ⟨1, 1, [], [0], [0, 1, 0, 0, 99]⟩ from by simp [Node.insertKV], liftG_ok]
  rw [BM.bind_apply, show writeNode 2 ⟨1, 1, [], [0], [0, 1, 0, 0, 99]⟩ T3d = .ok ((), T3e) from rfl]
  simp only []
  rw [BM.bind_apply, show setChild 2 0 (some 0) T3e = .ok ((), T3f) from rfl]
  simp only []
  rw [BM.bind_apply, show setChild 2 1 (some 1) T3f = .ok ((), T3g) from rfl]
  simp only []
  rw [BM.modify_apply]
  rfl


set_option maxRecDepth 4000 in
theorem ins7_4 : BTree.insert 10 [100] R3 T3 = .ok (none, T4) := by
  rw [BTree.insert,
      if_neg (show ¬ (([100] : Bytes).length > BTREE_MAX_KEY_SIZE) by decide),
      if_neg (show ¬ (R3.length > BTREE_MAX_VAL_SIZE) by rw [R3_length]; decide)]
  rw [BM.bind_apply, BM.getState_apply]
  simp only []
  rw [BM.bind_apply, show T3.root = 0 from rfl,
      show findLeaf 10 (some 0) [100] T3 = .ok (0, T3) from rfl]
  simp only []
  rw [BM.bind_apply, iil_T3]
  simp only []
  rw [BM.bind_apply, show readNode (some 0) T3b =
    .ok (⟨2, 4, [], [0, 5, 10, 3015], D4⟩, T3b) from rfl]
  simp only []
  rw [isFull_D4, if_pos rfl]
  rw [BM.bind_apply]
  simp only [split_D4, liftG_ok]
  rw [BM.bind_apply, show writeNode 0 ⟨2, 2, [], [0, 5], [0, 1, 0, 0, 97, 0, 1, 0, 0, 98]⟩ T3b =
    .ok ((), T3bw) from rfl]
  simp only []
  rw [BM.bind_apply, show allocNode ⟨2, 2, [], [0, 3005], FcFd⟩ T3bw = .ok (1, T3c) from rfl]
  simp only []
  rw [BM.bind_apply, BM.pure_apply]
  simp only []
  rw [BM.bind_apply, iip_T3c]
  simp only []
  rw [BM.bind_apply, BM.modify_apply]
  simp only [BM.pure_apply]
  rfl

/-- Operation sequence of claim C7: four inserts within the size bounds
whose count-based split leaves a right half of 6018 serialized bytes. -/
def c7ops : List Op := [.put [97] [], .put [98] [], .put [99] R3, .put [100] R3]

theorem runFull_c7 : runFull 10 c7ops newBTreeState =
    ([.putR none, .putR none, .putR none, .putR none], .ok T4) := by
  rw [c7ops, runFull, show stepOp 10 (.put [97] []) newBTreeState = .ok (.putR none, T1) by
    rw [stepOp, BM.bind_apply, ins7_1]; simp only [BM.pure_apply]]
  simp only []
  rw [runFull, show stepOp 10 (.put [98] []) T1 = .ok (.putR none, T2) by
    rw [stepOp, BM.bind_apply, ins7_2]; simp only [BM.pure_apply]]
  simp only []
  rw [runFull, show stepOp 10 (.put [99] R3) T2 = .ok (.putR none, T3) by
    rw [stepOp, BM.bind_apply, ins7_3]; simp only [BM.pure_apply]]
  simp only []
  rw [runFull, show stepOp 10 (.put [100] R3) T3 = .ok (.putR none, T4) by
    rw [stepOp, BM.bind_apply, ins7_4]; simp only [BM.pure_apply]]
  simp only []
  rw [runFull]

theorem T4_right_size : (T4.node 1).map Node.size = some 6018 := by
  rw [show T4.node 1 = some ⟨2, 2, [], [0, 3005], FcFd⟩ from rfl]
  simp [Node.size, FcFd_length]


/-! The Raft layer: `internal/raft/handlers.go`, the `RaftNode` election and
heartbeat transitions, and the `StorageEngine` adapter over the B+Tree.
Wall-clock state (`lastHeartbeat`, timers), the network, and the mutex are
outside the embedding; each handler is the state transition its locked
section performs. -/

/-- The `NodeState` enumeration of the Raft node. -/
inductive NState where
  | Follower
  | Candidate
  | Leader
deriving DecidableEq

/-- A `LogEntry` of the replicated log. -/
structure LogEntry where
  Term : Int
  Index : Int
  Command : Bytes
deriving DecidableEq

/-- The `RequestVoteRequest` RPC argument. -/
structure RequestVoteRequest where
  Term : Int
  CandidateID : String
  LastLogIndex : Int
  LastLogTerm : Int

/-- The `RequestVoteResponse` RPC result. -/
structure RequestVoteResponse where
  Term : Int
  VoteGranted : Bool
deriving DecidableEq

/-- The `AppendEntriesRequest` RPC argument. -/
structure AppendEntriesRequest where
  Term : Int
  LeaderID : String
  PrevLogIndex : Int
  PrevLogTerm : Int
  Entries : List LogEntry
  LeaderCommit : Int

/-- The `AppendEntriesResponse` RPC result. -/
structure AppendEntriesResponse where
  Term : Int
  Success : Bool
deriving DecidableEq

/-- The fields of the `RaftNode` struct the handlers read and write.  The
storage interface is the `StorageEngine` over the B+Tree (`badger` is the
alternative backend, out of scope).  Channels, timers and the mutex are
concurrency plumbing with no algorithmic state. -/
structure RaftNode where
  id : String
  currentTerm : Int
  votedFor : String
  log : List LogEntry
  commitIndex : Int
  lastApplied : Int
  state : NState
  nextIndex : List (String × Int)
  matchIndex : List (String × Int)
  peers : List (String × String)
  storage : BTreeState
deriving DecidableEq

/-- The `RaftNode.getLastLogTerm` method: 0 for an empty log, else the term
of the last entry. -/
def RaftNode.getLastLogTerm (n : RaftNode) : Int :=
  match n.log.getLast? with
  | none => 0
  | some e => e.Term

/-- The `RaftRPC.isLogUpToDate` method: the candidate wins on a strictly
greater last term, or an equal last term with at least the receiver's log
length as last index. -/
def isLogUpToDate (n : RaftNode) (candidateLastIndex candidateLastTerm : Int) : Bool :=
  decide (candidateLastTerm > n.getLastLogTerm)
    || (decide (candidateLastTerm = n.getLastLogTerm)
        && decide (candidateLastIndex ≥ (n.log.length : Int)))

/-- The `RaftRPC.logContainsEntry` method: index 0 matches vacuously, an
index beyond the log fails, and otherwise the stored term is compared.
`none` models the Go index panic on a negative index (`log[index-1]`). -/
def logContainsEntry (log : List LogEntry) (index term : Int) : Option Bool :=
  if index = 0 then some true
  else if index > (log.length : Int) then some false
  else if index < 1 then none
  else
    match log.get? (index - 1).toNat with
    | none => none
    | some e => some (decide (e.Term = term))

/-- The `RaftRPC.RequestVote` handler: reject a stale term, adopt a newer
term (clearing `votedFor` and reverting to follower), and grant iff
`votedFor` permits it and the candidate's log is up to date.  The
`lastHeartbeat` reset on grant is wall-clock state, not modelled. -/
def RequestVote (n : RaftNode) (req : RequestVoteRequest) :
    RequestVoteResponse × RaftNode :=
  if req.Term < n.currentTerm then (⟨n.currentTerm, false⟩, n)
  else
    let n1 := if req.Term > n.currentTerm then
        { n with currentTerm := req.Term, state := .Follower, votedFor := "" }
      else n
    if (n1.votedFor = "" ∨ n1.votedFor = req.CandidateID)
        ∧ isLogUpToDate n1 req.LastLogIndex req.LastLogTerm = true then
      (⟨n1.currentTerm, true⟩, { n1 with votedFor := req.CandidateID })
    else (⟨n1.currentTerm, false⟩, n1)

/-- The `StorageEngine.Put` method: B+Tree insert, then a flush to the data
file; the flush is file I/O outside the embedding, and an insert error is
returned to the caller before any flush. -/
def StorageEngine.Put (fuel : Nat) (key value : Bytes) : BM (Option BErr) :=
  BTree.insert fuel key value

/-- The `StorageEngine.Delete` method: B+Tree delete, then the flush,
modelled like `StorageEngine.Put`. -/
def StorageEngine.Delete (fuel : Nat) (key : Bytes) : BM (Option BErr) :=
  BTree.delete fuel key

/-- Command prefix bytes of `"PUT "`. -/
def PUTCMD : Bytes := [80, 85, 84, 32]

/-- Command prefix bytes of `"DEL "`. -/
def DELCMD : Bytes := [68, 69, 76, 32]

/-- Space-scanning loop of the PUT command parser: index of the first space
byte, `-1` when there is none. -/
def findSpace : Bytes → Nat → Int
  | [], _ => -1
  | b :: rest, i => if b = 32 then (i : Int) else findSpace rest (i + 1)

/-- The `RaftRPC.applyCommittedEntries` method: while `lastApplied` is
behind `commitIndex`, advance it and decode the entry at `lastApplied - 1`
(an out-of-range or negative index, or a command shorter than the 4-byte
`string(entry.Command[:4])` slice, is a Go panic).  A `PUT` with a space
separator calls `storage.Put` and a `DEL` calls `storage.Delete`; both
DISCARD the returned error.  Returns the final `lastApplied` and storage. -/
def applyCommittedEntries (bfuel : Nat) :
    Nat → List LogEntry → Int → Int → BTreeState → GRes (Int × BTreeState)
  | 0, _, _, _, _ => .oof
  | fuel + 1, log, commitIndex, lastApplied, st =>
    if lastApplied < commitIndex then
      let la := lastApplied + 1
      if la - 1 < 0 ∨ la - 1 ≥ (log.length : Int) then .panicked
      else
        match log.get? (la - 1).toNat with
        | none => .panicked
        | some entry =>
          if entry.Command.length < 4 then .panicked
          else
            let step : GRes BTreeState :=
              if entry.Command.take 4 = PUTCMD then
                let keyValue := entry.Command.drop 4
                let spaceIndex := findSpace keyValue 0
                if spaceIndex > 0 then
                  match StorageEngine.Put bfuel (keyValue.take spaceIndex.toNat)
                      (keyValue.drop (spaceIndex.toNat + 1)) st with
                  | .ok (_, st1) => .ok st1
                  | .panicked => .panicked
                  | .oof => .oof
                else .ok st
              else if entry.Command.take 4 = DELCMD then
                match StorageEngine.Delete bfuel (entry.Command.drop 4) st with
                | .ok (_, st1) => .ok st1
                | .panicked => .panicked
                | .oof => .oof
              else .ok st
            match step with
            | .ok st1 => applyCommittedEntries bfuel fuel log commitIndex la st1
            | .panicked => .panicked
            | .oof => .oof
    else .ok (lastApplied, st)

/-- Conflict scan of `AppendEntries`: the first position (0-based into the
receiver's log, as the Go code indexes it) where an incoming entry's term
differs from the stored one, `-1` when none; `none` models the Go index
panic on a negative `logIndex`. -/
def conflictScan (log : List LogEntry) (prev : Int) : List LogEntry → Nat → Option Int
  | [], _ => some (-1)
  | e :: rest, i =>
    let logIndex := prev + 1 + (i : Int)
    if logIndex < (log.length : Int) then
      if logIndex < 0 then none
      else
        match log.get? logIndex.toNat with
        | none => none
        | some le =>
          if le.Term ≠ e.Term then some logIndex
          else conflictScan log prev rest (i + 1)
    else conflictScan log prev rest (i + 1)

/-- Append loop of `AppendEntries`: each entry is appended with its `Index`
field rewritten to `len(log) + 1`. -/
def appendEntriesLoop (log : List LogEntry) : List LogEntry → List LogEntry
  | [] => log
  | e :: rest =>
    appendEntriesLoop (log ++ [{ e with Index := (log.length : Int) + 1 }]) rest

/-- The `RaftRPC.AppendEntries` handler: reject a stale term; adopt a newer
term; heartbeats (no entries) succeed immediately; otherwise reject when the
log lacks the `(prevLogIndex, prevLogTerm)` entry, else truncate at a
conflict, append the new entries, advance `commitIndex` to
`min(leaderCommit, len(log))`, and apply committed entries. -/
def AppendEntries (bfuel fuel : Nat) (n : RaftNode) (req : AppendEntriesRequest) :
    GRes (AppendEntriesResponse × RaftNode) :=
  if req.Term < n.currentTerm then .ok (⟨n.currentTerm, false⟩, n)
  else
    let n1 := if req.Term > n.currentTerm then
        { n with currentTerm := req.Term, state := .Follower, votedFor := "" }
      else n
    if req.Entries = [] then .ok (⟨n1.currentTerm, true⟩, n1)
    else
      match logContainsEntry n1.log req.PrevLogIndex req.PrevLogTerm with
      | none => .panicked
      | some false => .ok (⟨n1.currentTerm, false⟩, n1)
      | some true =>
        match conflictScan n1.log req.PrevLogIndex req.Entries 0 with
        | none => .panicked
        | some conflictIndex =>
          let log1 := if conflictIndex ≠ -1 then n1.log.take conflictIndex.toNat else n1.log
          let log2 := appendEntriesLoop log1 req.Entries
          let ci :=
            if req.LeaderCommit > n1.commitIndex then
              if req.LeaderCommit < (log2.length : Int) then req.LeaderCommit
              else (log2.length : Int)
            else n1.commitIndex
          match applyCommittedEntries bfuel fuel log2 ci n1.lastApplied n1.storage with
          | .ok (la, st) =>
            .ok (⟨n1.currentTerm, true⟩,
                 { n1 with log := log2, commitIndex := ci, lastApplied := la, storage := st })
          | .panicked => .panicked
          | .oof => .oof

/-- The locked section of `RaftNode.startElection`: transition to candidate,
increment `currentTerm`, vote for self.  The election-timeout redraw is
wall-clock state and the vote-request fan-out happens in goroutines, whose
lock-protected response handling is `handleVoteResponse`. -/
def startElection (n : RaftNode) : RaftNode :=
  { n with state := .Candidate, currentTerm := n.currentTerm + 1, votedFor := n.id }

/-- The `RaftNode.becomeLeader` transition: leader state and fresh
`nextIndex` / `matchIndex` for every peer; `currentTerm` is untouched.  The
initial heartbeat fan-out is network I/O. -/
def becomeLeader (n : RaftNode) : RaftNode :=
  { n with state := .Leader,
           nextIndex := n.peers.map (fun p => (p.1, (n.log.length : Int) + 1)),
           matchIndex := n.peers.map (fun p => (p.1, 0)) }

/-- Lock-protected body of the vote-response goroutine in `startElection`:
a response with a higher term is adopted (reverting to follower); otherwise
a granted vote that reaches a majority makes the node leader.  `votes` is
the count before this response and `totalVotes` the cluster size. -/
def handleVoteResponse (n : RaftNode) (resp : RequestVoteResponse)
    (votes totalVotes : Nat) : RaftNode :=
  if resp.Term > n.currentTerm then
    { n with currentTerm := resp.Term, state := .Follower, votedFor := "" }
  else if resp.VoteGranted ∧ votes + 1 > totalVotes / 2 then becomeLeader n
  else n

/-- Lock-protected body of the heartbeat-response goroutine in
`sendHeartbeats`: a response with a higher term is adopted. -/
def handleHeartbeatResponse (n : RaftNode) (respTerm : Int) : RaftNode :=
  if respTerm > n.currentTerm then
    { n with currentTerm := respTerm, state := .Follower, votedFor := "" }
  else n

/-! Claim theorems. -/

/-- C1: the spec claims that for every sequence of in-bounds inserts and
deletes the index is observationally a sorted map.  The code violates this:
on the sequence `c1ops` (three in-bounds inserts and a read) all three
inserts report success, but `insertInParent` overwrites the parent pointer
slot `pos+1` instead of shifting, orphaning the leaf that holds key [100];
the subsequent `Get [100]` then walks off the root's pointer array and
dereferences a nil child — a runtime panic — where the reference map returns
the stored value. -/
theorem c1_observational_equivalence_fails_with_split :
    runFull 10 c1ops newBTreeState =
      ([.putR none, .putR none, .putR none, .panicked], .panicked)
    ∧ runSpecMap c1ops [] = [.putR none, .putR none, .putR none, .getR (.found Vc)]
    ∧ (runFull 10 c1ops newBTreeState).1 ≠ runSpecMap c1ops [] := by
  refine ⟨runFull_c1, runSpecMap_c1, ?_⟩
  rw [runFull_c1, runSpecMap_c1]
  decide

/-- C2: the spec claims `decode(encode(p)) == p` for every node.  The code
violates this: `Serialize` writes `len(pointers)` pointer fields while
`Deserialize` reads `nkeys` of them, so for the one-entry leaf `c2node`
(pointers empty, documented layout `nkeys×8B`) decoding the 12-byte
serialization reads a phantom pointer from the offset/data region and then
indexes past the buffer — a runtime panic, not the original node. -/
theorem c2_roundtrip_fails_on_one_entry_leaf :
    Node.serialize ⟨2, 1, [], [0], [0, 1, 0, 1, 97, 98]⟩ =
      [0, 2, 0, 1, 0, 0, 0, 1, 0, 1, 97, 98]
    ∧ Node.deserialize (Node.serialize ⟨2, 1, [], [0], [0, 1, 0, 1, 97, 98]⟩) =
        .panicked
    ∧ DeserResult.panicked ≠ .ok ⟨2, 1, [], [0], [0, 1, 0, 1, 97, 98]⟩ := by
  refine ⟨by decide, by decide, by decide⟩

/-- C6: the spec claims that after a delete that empties a non-root leaf, no
node other than the root has zero entries.  The code violates this: its
`redistribute` and `merge` are empty stubs (their comments say the logic
remains to be implemented), so after `c6ops` the delete succeeds, yet the
leaf at address 0 — still reachable as child 0 of the internal root at
address 2 through pointer id 1 — holds zero entries. -/
theorem c6_empty_nonroot_leaf_remains_after_delete :
    runFull 10 c6ops newBTreeState =
      ([.putR none, .putR none, .delR none], .ok S6)
    ∧ S6.node 0 = some ⟨BNODE_LEAF, 0, [], [], []⟩
    ∧ S6.root = 2
    ∧ (0 : Nat) ≠ S6.root
    ∧ (S6.node 2).map Node.pointers = some [1, 2]
    ∧ S6.relGet 1 = some 0 :=
  ⟨runFull_c6, rfl, rfl, by decide, rfl, rfl⟩

/-- C7: the spec claims no node's serialized size exceeds 4096 bytes after
any successful operation (both halves of every split fit in a page).  The
code violates this: `Split` divides at the middle entry index, not by
bytes, so after the four successful in-bounds inserts of `c7ops` the right
half — reachable as child 1 of the root — serializes to 6018 bytes, and no
further split is attempted. -/
theorem c7_split_can_leave_oversized_node :
    runFull 10 c7ops newBTreeState =
      ([.putR none, .putR none, .putR none, .putR none], .ok T4)
    ∧ (T4.node 1).map Node.size = some 6018
    ∧ 6018 > BTREE_PAGE_SIZE
    ∧ T4.root = 2
    ∧ (T4.node 2).map Node.pointers = some [1, 2]
    ∧ T4.relGet 2 = some 1 :=
  ⟨runFull_c7, T4_right_size, by decide, rfl, rfl, rfl⟩

/-- C8: the spec claims decoding fails with an error when the declared
contents exceed the buffer.  The code violates this: `Deserialize` checks
only `len(data) < 4`; the 4-byte input `[0, 2, 0, 1]` declares one key, so
the pointer loop reads indices 4..11 of a 4-byte buffer — an out-of-range
access (runtime panic), not an error return.  The error return exists only
for inputs shorter than 4 bytes. -/
theorem c8_deserialize_panics_instead_of_error :
    Node.deserialize [0, 2, 0, 1] = .panicked
    ∧ Node.deserialize [0, 2] = .errTooShort
    ∧ DeserResult.panicked ≠ DeserResult.errTooShort := by
  refine ⟨by decide, by decide, by decide⟩

/-- Committed log of claim C3: `PUT k 1` followed by `PUT k 2` for the same
key `k` (byte 107). -/
def c3log : List LogEntry :=
  [⟨1, 1, [80, 85, 84, 32, 107, 32, 49]⟩, ⟨1, 2, [80, 85, 84, 32, 107, 32, 50]⟩]

/-- Storage after applying `c3log`: the index still holds the FIRST value. -/
def c3st : BTreeState :=
  { heap := [(0, ⟨2, 1, [], [0], [0, 1, 0, 1, 107, 49]⟩)], rel := [],
    nextNodeID := 1, nextAddr := 1, root := 0, size := 1 }

/-- C3: the spec claims applying a committed PUT for a present key replaces
the stored value, so a subsequent Get returns the new value.  The code
violates this: `StorageEngine.Put` forwards the B+Tree's duplicate-key
error and `applyCommittedEntries` discards it, so after applying
`PUT k 1; PUT k 2` the index still returns the OLD value `"1"` ([49]) for
`k`, not `"2"` ([50]); the fourth conjunct shows the discarded error. -/
theorem c3_put_apply_does_not_overwrite :
    applyCommittedEntries 10 10 c3log 2 0 newBTreeState = .ok (2, c3st)
    ∧ BTree.get 10 [107] c3st = .ok (.found [49], c3st)
    ∧ GetRes.found [49] ≠ .found [50]
    ∧ StorageEngine.Put 10 [107] [50] c3st = .ok (some .keyExists, c3st) := by
  refine ⟨by decide, by decide, by decide, by decide⟩

/-- Receiver of the C4 counterexample: term 1, empty log. -/
def c4node : RaftNode :=
  { id := "n1", currentTerm := 1, votedFor := "", log := [], commitIndex := 0,
    lastApplied := 0, state := .Follower, nextIndex := [], matchIndex := [],
    peers := [], storage := newBTreeState }

/-- Heartbeat of the C4 counterexample: equal term, no entries, but a
`prevLogIndex` of 5 that the empty log cannot contain. -/
def c4hb : AppendEntriesRequest :=
  { Term := 1, LeaderID := "n2", PrevLogIndex := 5, PrevLogTerm := 1,
    Entries := [], LeaderCommit := 0 }

/-- C4 counterexample: the claim asserts the consistency check also rejects
requests carrying no entries.  The code returns success for every heartbeat
before reaching `logContainsEntry`: here the receiver's log does not contain
an entry at `prevLogIndex = 5` (`logContainsEntry` is false), the term is
current, and yet the response is `success = true`. -/
theorem c4_heartbeat_skips_consistency_check :
    logContainsEntry c4node.log c4hb.PrevLogIndex c4hb.PrevLogTerm = some false
    ∧ AppendEntries 5 5 c4node c4hb = .ok (⟨1, true⟩, c4node) := by
  refine ⟨by decide, by decide⟩

/-- C4 amended: for every request that CARRIES ENTRIES, with a term at least
the receiver's, whose `(prevLogIndex, prevLogTerm)` is not in the log, the
handler replies `success = false` and leaves the log unchanged.  (Heartbeats
are excluded: the code returns success for them without the check.) -/
theorem c4_amended_nonempty_rejected_log_unchanged
    (bfuel fuel : Nat) (n : RaftNode) (req : AppendEntriesRequest)
    (hen : req.Entries ≠ [])
    (hterm : ¬ req.Term < n.currentTerm)
    (hlog : logContainsEntry n.log req.PrevLogIndex req.PrevLogTerm = some false) :
    match AppendEntries bfuel fuel n req with
    | .ok (resp, n2) => resp.Success = false ∧ n2.log = n.log
    | _ => False := by
  rw [AppendEntries, if_neg hterm]
  have hlog1 : (if req.Term > n.currentTerm then
      { n with currentTerm := req.Term, state := .Follower, votedFor := "" }
    else n).log = n.log := by
    by_cases h : req.Term > n.currentTerm <;> simp [h]
  simp only [hlog1, hlog, if_neg hen]
  exact ⟨trivial, trivial⟩

/-- Witness for the amended C4 theorem at a concrete rejected request. -/
theorem c4_amended_witness :
    match AppendEntries 5 5 c4node
        { Term := 1, LeaderID := "n2", PrevLogIndex := 5, PrevLogTerm := 1,
          Entries := [⟨1, 6, [68, 69, 76, 32, 107]⟩], LeaderCommit := 0 } with
    | .ok (resp, n2) => resp.Success = false ∧ n2.log = c4node.log
    | _ => False :=
  c4_amended_nonempty_rejected_log_unchanged 5 5 c4node
    { Term := 1, LeaderID := "n2", PrevLogIndex := 5, PrevLogTerm := 1,
      Entries := [⟨1, 6, [68, 69, 76, 32, 107]⟩], LeaderCommit := 0 }
    (by decide) (by decide) (by decide)

/-- C5: the handler grants a vote if and only if the request's term is at
least `currentTerm`, `votedFor` after any term adoption is empty or the
candidate, and the candidate's log is at least as up to date (strictly
greater last term, or equal last term and last index at least the
receiver's log length). -/
theorem c5_requestvote_grant_iff (n : RaftNode) (req : RequestVoteRequest) :
    (RequestVote n req).1.VoteGranted = true ↔
      (req.Term ≥ n.currentTerm
       ∧ ((if req.Term > n.currentTerm then "" else n.votedFor) = ""
          ∨ (if req.Term > n.currentTerm then "" else n.votedFor) = req.CandidateID)
       ∧ (req.LastLogTerm > n.getLastLogTerm
          ∨ (req.LastLogTerm = n.getLastLogTerm
             ∧ req.LastLogIndex ≥ (n.log.length : Int)))) := by
  unfold RequestVote isLogUpToDate
  by_cases h1 : req.Term < n.currentTerm
  · rw [if_pos h1]
    constructor
    · intro h
      simp at h
    · rintro ⟨hge, -⟩
      omega
  · rw [if_neg h1]
    by_cases h2 : req.Term > n.currentTerm
    · simp only [if_pos h2]
      split_ifs with h3
      · simp only [true_iff, show ((⟨req.Term, true⟩ : RequestVoteResponse), _).1.VoteGranted = true from rfl]
        obtain ⟨hv, hu⟩ := h3
        refine ⟨by omega, by simpa using hv, ?_⟩
        simp only [RaftNode.getLastLogTerm] at hu ⊢
        simp at hu
        tauto
      · constructor
        · intro h
          simp at h
        · rintro ⟨-, hv, hu⟩
          exfalso
          apply h3
          refine ⟨by simpa using hv, ?_⟩
          simp only [RaftNode.getLastLogTerm]
          simp
          tauto
    · simp only [if_neg h2]
      split_ifs with h3
      · simp only [true_iff, show ((⟨n.currentTerm, true⟩ : RequestVoteResponse), _).1.VoteGranted = true from rfl]
        obtain ⟨hv, hu⟩ := h3
        refine ⟨by omega, by simpa using hv, ?_⟩
        simp at hu
        tauto
      · constructor
        · intro h
          simp at h
        · rintro ⟨-, hv, hu⟩
          exact h3 ⟨by simpa using hv, by simp; tauto⟩

/-- C10: `currentTerm` never decreases.  Every operation that can modify it
— handling `RequestVote`, handling `AppendEntries` (when it completes
without a runtime panic), starting an election, and integrating a vote or
heartbeat response carrying a higher term — leaves it unchanged or strictly
increases it. -/
theorem c10_current_term_monotone :
    (∀ (n : RaftNode) (req : RequestVoteRequest),
       (RequestVote n req).2.currentTerm ≥ n.currentTerm)
    ∧ (∀ (bfuel fuel : Nat) (n : RaftNode) (req : AppendEntriesRequest)
         (p : AppendEntriesResponse × RaftNode),
         AppendEntries bfuel fuel n req = .ok p → p.2.currentTerm ≥ n.currentTerm)
    ∧ (∀ n : RaftNode, (startElection n).currentTerm ≥ n.currentTerm)
    ∧ (∀ (n : RaftNode) (resp : RequestVoteResponse) (votes totalVotes : Nat),
        (handleVoteResponse n resp votes totalVotes).currentTerm ≥ n.currentTerm)
    ∧ (∀ (n : RaftNode) (respTerm : Int),
        (handleHeartbeatResponse n respTerm).currentTerm ≥ n.currentTerm) := by
  refine ⟨?_, ?_, ?_, ?_, ?_⟩
  · intro n req
    unfold RequestVote
    by_cases h1 : req.Term < n.currentTerm
    · rw [if_pos h1]
    · rw [if_neg h1]
      by_cases h2 : req.Term > n.currentTerm
      · rw [if_pos h2]
        simp only []
        split_ifs <;> simp <;> omega
      · rw [if_neg h2]
        simp only []
        split_ifs <;> simp <;> omega
  · intro bfuel fuel n req p h
    by_cases h1 : req.Term < n.currentTerm
    · rw [AppendEntries, if_pos h1] at h
      cases h
      simp
    · rw [AppendEntries, if_neg h1] at h
      simp only [] at h
      by_cases h2 : req.Term > n.currentTerm
      · rw [if_pos h2] at h
        by_cases h3 : req.Entries = []
        · rw [if_pos h3] at h
          cases h
          try simp
          try omega
        · rw [if_neg h3] at h
          split at h
          · simp at h
          · cases h
            try simp
            try omega
          · split at h
            · simp at h
            · split at h
              · cases h
                try simp
                try omega
              · simp at h
              · simp at h
      · rw [if_neg h2] at h
        by_cases h3 : req.Entries = []
        · rw [if_pos h3] at h
          cases h
          try simp
          try omega
        · rw [if_neg h3] at h
          split at h
          · simp at h
          · cases h
            try simp
            try omega
          · split at h
            · simp at h
            · split at h
              · cases h
                try simp
                try omega
              · simp at h
              · simp at h
  · intro n
    unfold startElection
    try simp
    try omega
  · intro n resp votes totalVotes
    unfold handleVoteResponse becomeLeader
    split_ifs <;> try simp
    all_goals try omega
  · intro n respTerm
    unfold handleHeartbeatResponse
    split_ifs <;> try simp
    all_goals try omega

/-- Witness for C10 at a concrete `AppendEntries` call that completes. -/
theorem c10_current_term_monotone_witness :
    AppendEntries 5 5 c4node c4hb = .ok (⟨1, true⟩, c4node)
    ∧ ((⟨1, true⟩, c4node) : AppendEntriesResponse × RaftNode).2.currentTerm ≥
        c4node.currentTerm :=
  ⟨by decide,
   c10_current_term_monotone.2.1 5 5 c4node c4hb (⟨1, true⟩, c4node) (by decide)⟩

/-- Position loop of `insertInLeaf` can only report an exact match; used to
show the public insert path raises no size error after validation. -/
theorem insertLeafPos_cases (key : Bytes) (ks : List Bytes) (pos : Nat) :
    insertLeafPos key ks pos = none ∨ ∃ j, insertLeafPos key ks pos = some j := by
  induction ks generalizing pos with
  | nil => exact .inr ⟨pos, rfl⟩
  | cons k rest ih =>
    rw [insertLeafPos]
    split_ifs
    · exact .inl rfl
    · exact .inr ⟨pos, rfl⟩
    · exact ih (pos + 1)

/-- The `insertInLeaf` method returns either no error or the
duplicate-key error, never a size error. -/
theorem insertInLeaf_no_size_error (a : Nat) (key value : Bytes) (s : BTreeState)
    (r : Option BErr) (s2 : BTreeState)
    (h : insertInLeaf a key value s = .ok (r, s2)) :
    r = none ∨ r = some .keyExists := by
  rw [insertInLeaf, BM.bind_apply] at h
  rw [show readNode (some a) s = (match s.node a with
        | none => GRes.panicked
        | some n => .ok (n, s)) from rfl] at h
  rcases hn : s.node a with - | leaf
  · rw [hn] at h
    simp at h
  · rw [hn] at h
    simp only [] at h
    rcases hp : insertLeafPos key leaf.keys 0 with - | pos
    all_goals rw [hp] at h
    all_goals simp only [] at h
    · rw [BM.pure_apply] at h
      cases h
      exact .inr rfl
    · rw [BM.bind_apply] at h
      rcases hkv : leaf.insertKV pos key value with n1 | - | -
      all_goals rw [hkv] at h
      · rw [liftG_ok] at h
        simp only [] at h
        rw [BM.bind_apply] at h
        rw [show writeNode a n1 s = .ok ((), s.setNode a n1) from rfl] at h
        simp only [] at h
        rw [BM.pure_apply] at h
        cases h
        exact .inl rfl
      · rw [show liftG (α := Node) .panicked s = .panicked from rfl] at h
        simp at h
      · rw [show liftG (α := Node) .oof s = .oof from rfl] at h
        simp at h

/-- Application of `writeNode`. -/
theorem writeNode_apply (a : Nat) (n : Node) (s : BTreeState) :
    writeNode a n s = .ok ((), s.setNode a n) := rfl

/-- Application of `readNode` to a non-nil pointer. -/
theorem readNode_some_apply (a : Nat) (s : BTreeState) :
    readNode (some a) s =
      (match s.node a with
       | none => GRes.panicked
       | some n => .ok (n, s)) := rfl

/-- Application of a match on an optional right sibling, pushed through the
state argument. -/
theorem match_option_node_apply {γ : Type} (o : Option Node) (f : Node → BM γ)
    (g : BM γ) (s : BTreeState) :
    (match o with | some rn => f rn | none => g) s =
      (match o with | some rn => f rn s | none => g s) := by
  cases o <;> rfl

/-- The split-and-propagate tail of `BTree.insert` never produces an error
value: when it completes, the reported error is `none`. -/
theorem insert_tail_returns_none (fuel : Nat) (leafA : Nat) (s : BTreeState)
    (r : Option BErr) (s2 : BTreeState)
    (h : ((do
        let leaf ← readNode (some leafA)
        if leaf.isFull then do
          let sp ← liftG leaf.split
          writeNode leafA sp.1
          let rA? ← match sp.2.1 with
            | some rn => do
                let a ← allocNode rn
                pure (some a)
            | none => pure none
          insertInParent fuel leafA sp.2.2 rA?
        else pure ()
        BM.modify (fun st => { st with size := st.size + 1 })
        pure none) : BM (Option BErr)) s = .ok (r, s2)) :
    r = none := by
  repeat'
    first
    | split at h
    | simp only [BM.bind_apply, BM.pure_apply, BM.modify_apply, writeNode_apply,
                 readNode_some_apply, liftG, match_option_node_apply] at h
  all_goals
    first
    | (cases h; rfl)
    | simp_all

/-- C9: for every tree state, an insert with a key longer than 1000 bytes
fails with the key-too-large error and an insert with a value longer than
3000 bytes fails with the value-too-large error, in both cases leaving the
state unchanged; and an insert whose key and value are within the bounds is
never rejected for size (its only error value is the duplicate-key error). -/
theorem c9_insert_size_bounds (s : BTreeState) (key value : Bytes) (fuel : Nat) :
    (key.length > BTREE_MAX_KEY_SIZE →
       BTree.insert fuel key value s = .ok (some .keyTooLarge, s))
    ∧ (key.length ≤ BTREE_MAX_KEY_SIZE → value.length > BTREE_MAX_VAL_SIZE →
       BTree.insert fuel key value s = .ok (some .valueTooLarge, s))
    ∧ (key.length ≤ BTREE_MAX_KEY_SIZE → value.length ≤ BTREE_MAX_VAL_SIZE →
       ∀ (r : Option BErr) (s2 : BTreeState),
         BTree.insert fuel key value s = .ok (r, s2) →
         r ≠ some .keyTooLarge ∧ r ≠ some .valueTooLarge) := by
  refine ⟨?_, ?_, ?_⟩
  · intro hk
    rw [BTree.insert, if_pos hk]
    rfl
  · intro hk hv
    rw [BTree.insert, if_neg (by omega), if_pos hv]
    rfl
  · intro hk hv r s2 h
    rw [BTree.insert, if_neg (by omega), if_neg (by omega)] at h
    rw [BM.bind_apply, BM.getState_apply] at h
    try simp only [] at h
    rw [BM.bind_apply] at h
    rcases hfl : findLeaf fuel (some s.root) key s with ⟨la, s1⟩ | - | -
    all_goals rw [hfl] at h
    all_goals try simp at h
    try simp only [] at h
    rw [BM.bind_apply] at h
    rcases hiil : insertInLeaf la key value s1 with ⟨ri, s3⟩ | - | -
    all_goals rw [hiil] at h
    all_goals try simp at h
    try simp only [] at h
    rcases insertInLeaf_no_size_error la key value s1 ri s3 hiil with hri | hri
    · subst hri
      simp only [] at h
      have := insert_tail_returns_none fuel la s3 r s2 h
      subst this
      exact ⟨by simp, by simp⟩
    · subst hri
      simp only [] at h
      rw [BM.pure_apply] at h
      cases h
      exact ⟨by simp, by simp⟩

/-- Tree with the single pair `(7, 8)`, final state of the C9 witness. -/
def T9w : BTreeState :=
  { heap := [(0, ⟨2, 1, [], [0], [0, 1, 0, 1, 7, 8]⟩)], rel := [], nextNodeID := 1,
    nextAddr := 1, root := 0, size := 1 }

/-- Witness for C9 at concrete inputs exercising all three conjuncts. -/
theorem c9_insert_size_bounds_witness :
    (BTree.insert 10 (List.replicate 1001 7) [] newBTreeState =
       .ok (some .keyTooLarge, newBTreeState))
    ∧ (BTree.insert 10 [7] (List.replicate 3001 7) newBTreeState =
       .ok (some .valueTooLarge, newBTreeState))
    ∧ BTree.insert 10 [7] [8] newBTreeState = .ok (none, T9w)
    ∧ (none ≠ some BErr.keyTooLarge ∧ none ≠ some BErr.valueTooLarge) :=
  ⟨(c9_insert_size_bounds newBTreeState (List.replicate 1001 7) [] 10).1
     (by rw [List.length_replicate]; decide),
   (c9_insert_size_bounds newBTreeState [7] (List.replicate 3001 7) 10).2.1
     (by decide) (by rw [List.length_replicate]; decide),
   by decide,
   (c9_insert_size_bounds newBTreeState [7] [8] 10).2.2
     (by decide) (by decide) none T9w (by decide)⟩

end GoDB
